import Mathlib

/-!
# Result-tree namespace handling of libxslt (`libxslt/namespaces.c`)

A shallow embedding of the three entry points of `namespaces.c`

* `xsltNamespaceAlias`   (the Alias Registry),
* `xsltGetNamespace`     (the Scope Resolver),
* `xsltCopyNamespaceList` (the List Cloner),

together with the libxml2 tree and hash primitives they call.

Conventions of the embedding.

* A C pointer that may be `NULL` is an `Option`; `NULL` is `none`.
* A singly linked `xmlNs` list (`->next`) is a Lean `List xmlNs`.
* A node is a value that carries its own chain of ancestors (`parent`), which
  is all the code ever walks; a function that may attach a declaration to a
  node returns the node as it is after the call.
* Allocation (`xmlMalloc`) is taken to succeed; a creation primitive fails
  only where libxml2 refuses the request (see `xmlNewNs`).
* Diagnostics written through `xsltGenericError` are not part of the state.
* The libxml2 primitives are modelled after libxml2 itself: `xmlHashAddEntry`
  rejects a name that is present, `xmlNewNs` refuses a prefix that the node
  declares already, `xmlSearchNsByHref` passes over a declaration whose
  prefix is declared again nearer to the start node, `xmlGetNsProp` finds
  the attributes that are anchored in the namespace asked for. A search
  looks at the declarations (`nsDef`) only. The binding of the prefix `xml`,
  which libxml2 keeps on the document, entities and DTD defaults are outside
  the model.
-/

namespace Xslt

/-! ## Data model (libxml2 `tree.h`, libxslt `xsltInternals.h`) -/

/-- The node kinds of libxml2 (`xmlElementType`) that matter here. -/
inductive xmlElementType where
  | XML_ELEMENT_NODE
  | XML_ATTRIBUTE_NODE
  | XML_TEXT_NODE
  | XML_COMMENT_NODE
  | XML_DOCUMENT_NODE
  deriving DecidableEq, Repr

/-- A namespace declaration (`struct _xmlNs`): `href` is the URI, `pfx` is
the C field named prefix (absent for the default namespace). The `next` link
is the position in the list that holds the declaration. -/
structure xmlNs where
  href : Option String
  pfx : Option String
  deriving DecidableEq, Repr

/-- An attribute (`struct _xmlAttr`) with its text value. -/
structure xmlAttr where
  name : String
  ns : Option xmlNs
  value : String
  deriving DecidableEq, Repr

/-- A tree node (`struct _xmlNode`): `ns` is the namespace the node is in,
`nsDef` the declarations carried by the node, `parent` the parent node. -/
structure xmlNode where
  type : xmlElementType
  ns : Option xmlNs
  nsDef : List xmlNs
  properties : List xmlAttr
  parent : Option xmlNode
  deriving Repr

/-- A libxml2 hash table from names to user data, here URI to URI: the
entries in insertion order. -/
abbrev xmlHashTable := List (String × String)

/-- Modelled from the spec: the compiled rule-set that owns the Alias Table
(`struct _xsltStylesheet`; its header `xsltInternals.h` is not among the
sources), reduced to the field the code uses: `nsAliases`, `NULL` until the
table is created on the first registration. -/
structure xsltStylesheet where
  nsAliases : Option xmlHashTable
  deriving DecidableEq, Repr

/-- Modelled from the spec: the active transform context
(`struct _xsltTransformContext`, also of `xsltInternals.h`), reduced to the
field the code uses: `style`, the compiled rule-set. -/
structure xsltTransformContext where
  style : xsltStylesheet
  deriving DecidableEq, Repr

/-- Modelled from the spec: the Reserved Rule Namespace, the fixed URI that
identifies the transformation language's own declarations. The header
`xslt.h` that defines the constant is not among the sources; the value is the
XSLT 1.0 namespace name. -/
def XSLT_NAMESPACE : String := "http://www.w3.org/1999/XSL/Transform"

/-! ## libxml2 primitives

These functions belong to libxml2, not to libxslt. Each is modelled after its
documented contract. -/

/-- String equality of libxml2: two `NULL` pointers are equal, `NULL` differs
from every string, two strings are compared by content. -/
def xmlStrEqual (str1 str2 : Option String) : Bool :=
  match str1, str2 with
  | none, none => true
  | some a, some b => a == b
  | _, _ => false

/-- Creation of a hash table (allocation succeeds, the table is empty). -/
def xmlHashCreate (_size : Nat) : Option xmlHashTable := some []

/-- Lookup by name: `NULL` for a `NULL` table or name, otherwise the user data
registered under the name. -/
def xmlHashLookup (table : Option xmlHashTable) (name : Option String) :
    Option String :=
  match table, name with
  | some t, some n => (t.find? (fun e => e.1 == n)).map Prod.snd
  | _, _ => none

/-- Insertion of libxml2: "Duplicate names generate errors". Returns `-1` and
leaves the table alone when the table or the name is `NULL` or the name is
already present, otherwise adds the entry and returns `0`. -/
def xmlHashAddEntry (table : Option xmlHashTable) (name : Option String)
    (userdata : String) : Int × Option xmlHashTable :=
  match table, name with
  | some t, some n =>
    if t.any (fun e => e.1 == n) then (-1, some t)
    else (0, some (t ++ [(n, userdata)]))
  | _, _ => (-1, table)

/-- Attribute lookup of libxml2: the value of the first attribute of `node`
with the given name that is anchored in the namespace `nameSpace`, `NULL`
when there is none. -/
def xmlGetNsProp (node : xmlNode) (name : String) (nameSpace : String) :
    Option String :=
  (node.properties.find? (fun prop =>
      prop.name == name &&
      (match prop.ns with
       | none => false
       | some pns => xmlStrEqual pns.href (some nameSpace)))).map
    (fun prop => prop.value)

/-- Search by prefix of libxml2: the first declaration on `node`, then on its
parent and so on, whose prefix is `nameSpace` (`NULL` asks for the default
namespace). -/
def xmlSearchNs : xmlNode → Option String → Option xmlNs
  | ⟨_, _, nsDef, _, parent⟩, nameSpace =>
    match nsDef.find? (fun cur => xmlStrEqual cur.pfx nameSpace) with
    | some cur => some cur
    | none =>
      match parent with
      | none => none
      | some up => xmlSearchNs up nameSpace

/-- The walk of `xmlSearchNsByHref` once `href` is known not to be `NULL`.
`nearer` holds the declarations of the nodes between the node the search
started from and the current node: a declaration with the URI asked for is
passed over when its prefix is declared again there ("check that the prefix
is not shadowed between orig and node"). -/
def xmlSearchNsByHref.walk (href : String) : List xmlNs → xmlNode → Option xmlNs
  | nearer, ⟨_, _, nsDef, _, parent⟩ =>
    match nsDef.find? (fun cur =>
        xmlStrEqual cur.href (some href) &&
          !nearer.any (fun tst => xmlStrEqual tst.pfx cur.pfx)) with
    | some cur => some cur
    | none =>
      match parent with
      | none => none
      | some up => xmlSearchNsByHref.walk href (nearer ++ nsDef) up

/-- Search by URI of libxml2: `NULL` for a `NULL` node or URI, otherwise the
first declaration on `node`, then on its parent and so on, whose URI is
`href` and whose prefix is not declared again nearer to `node`. -/
def xmlSearchNsByHref (node : Option xmlNode) (href : Option String) :
    Option xmlNs :=
  match node, href with
  | some n, some h => xmlSearchNsByHref.walk h [] n
  | _, _ => none

/-- Creation of a declaration of libxml2. "This function will refuse to
create a namespace with a similar prefix than an existing one present on this
node": then, and when `node` is given but is not an element, the result is
`NULL` and nothing changes. Otherwise the new declaration is returned and,
when `node` is given, added at the end of its `nsDef` list. The second
component is `node` after the call. -/
def xmlNewNs (node : Option xmlNode) (href : Option String)
    (pfx : Option String) : Option xmlNs × Option xmlNode :=
  match node with
  | none => (some ⟨href, pfx⟩, none)
  | some n =>
    if n.type ≠ xmlElementType.XML_ELEMENT_NODE then (none, some n)
    else if n.nsDef.any (fun prev => xmlStrEqual prev.pfx pfx) then
      (none, some n)
    else (some ⟨href, pfx⟩, some { n with nsDef := n.nsDef ++ [⟨href, pfx⟩] })

/-! ## `namespaces.c` -/

/-- The body of `xsltNamespaceAlias` after both attributes were read. -/
def xsltNamespaceAlias.register (style : xsltStylesheet) (node : xmlNode)
    (sPfx rPfx : String) : xsltStylesheet :=
  let sNs :=
    if xmlStrEqual (some sPfx) (some "#default") then xmlSearchNs node none
    else xmlSearchNs node (some sPfx)
  match sNs with
  | none => style
  | some sNs =>
    match sNs.href with
    | none => style
    | some _ =>
      let rNs :=
        if xmlStrEqual (some rPfx) (some "#default") then xmlSearchNs node none
        else xmlSearchNs node (some rPfx)
      match rNs with
      | none => style
      | some rNs =>
        match rNs.href with
        | none => style
        | some rHref =>
          let style1 : xsltStylesheet :=
            match style.nsAliases with
            | none => { style with nsAliases := xmlHashCreate 10 }
            | some _ => style
          match style1.nsAliases with
          | none => style1
          | some t =>
            { style1 with
              nsAliases := (xmlHashAddEntry (some t) sNs.href rHref).2 }

/-- The function `xsltNamespaceAlias(style, node)`: the stylesheet after the
call. -/
def xsltNamespaceAlias (style : xsltStylesheet) (node : xmlNode) :
    xsltStylesheet :=
  match xmlGetNsProp node "stylesheet-prefix" XSLT_NAMESPACE with
  | none => style
  | some sPfx =>
    match xmlGetNsProp node "result-prefix" XSLT_NAMESPACE with
    | none => style
    | some rPfx => xsltNamespaceAlias.register style node sPfx rPfx

/-- The function `xsltGetNamespace(ctxt, cur, ns, out)`: the returned
declaration and the node `out` after the call. -/
def xsltGetNamespace (ctxt : Option xsltTransformContext)
    (cur : Option xmlNode) (ns : Option xmlNs) (out : Option xmlNode) :
    Option xmlNs × Option xmlNode :=
  match ctxt, cur, out, ns with
  | some ctxt, some _, some out, some ns =>
    if (out.type == xmlElementType.XML_ELEMENT_NODE) &&
        (match out.ns with
         | none => false
         | some ons =>
           ons.href.isSome && ns.href.isSome &&
             xmlStrEqual ons.href ns.href) then
      (out.ns, some out)
    else
      let URI : Option String :=
        match ctxt.style.nsAliases with
        | some t =>
          match xmlHashLookup (some t) ns.href with
          | none => ns.href
          | some u => some u
        | none => ns.href
      match xmlSearchNsByHref (some out) URI with
      | some ret => (some ret, some out)
      | none =>
        if out.type = xmlElementType.XML_ELEMENT_NODE then
          xmlNewNs (some out) ns.href ns.pfx
        else (none, some out)
  | _, _, _, _ => (none, out)

/-- Lines 186-192 of `xsltCopyNamespaceList`: the declaration `q` created
for the source cell `cur`, and `node` after the creation. -/
def xsltCopyNamespaceList.create (ctxt : xsltTransformContext)
    (node : Option xmlNode) (cur : xmlNs) : Option xmlNs × Option xmlNode :=
  let URI := xmlHashLookup ctxt.style.nsAliases cur.href
  match URI with
  | some u => xmlNewNs node (some u) cur.pfx
  | none => xmlNewNs node cur.href cur.pfx

/-- The loop of `xsltCopyNamespaceList`. `ret` is the list that starts at the
C pointer `ret`, `p` the C pointer `p` (the last cell of that list, or
`NULL`), `cur` the source cells still to visit. `ret = p = q` makes the list
the single cell `q` (empty when `q` is `NULL`); `p->next = q` puts `q` behind
the last cell. -/
def xsltCopyNamespaceList.loop (ctxt : xsltTransformContext) :
    Option xmlNode → List xmlNs → Option xmlNs → List xmlNs →
      List xmlNs × Option xmlNode
  | node, ret, _, [] => (ret, node)
  | node, ret, p, cur :: next =>
    if !xmlStrEqual cur.href (some XSLT_NAMESPACE) then
      let q := xsltCopyNamespaceList.create ctxt node cur
      match p with
      | none => xsltCopyNamespaceList.loop ctxt q.2 q.1.toList q.1 next
      | some _ =>
        xsltCopyNamespaceList.loop ctxt q.2 (ret ++ q.1.toList) q.1 next
    else xsltCopyNamespaceList.loop ctxt node ret p next

/-- The function `xsltCopyNamespaceList(ctxt, node, cur)`: the returned list
and `node` after the call. -/
def xsltCopyNamespaceList (ctxt : xsltTransformContext)
    (node : Option xmlNode) (cur : List xmlNs) :
    List xmlNs × Option xmlNode :=
  xsltCopyNamespaceList.loop ctxt node [] none cur

/-! ## Vocabulary of the specification -/

/-- The in-scope bindings of a node, in the words of the specification: the
bindings on that node and all its ancestors, with nearer declarations
shadowing farther ones for the same prefix. -/
def inScopeBindings : xmlNode → List xmlNs
  | ⟨_, _, nsDef, _, parent⟩ =>
    match parent with
    | none => nsDef
    | some up =>
      nsDef ++ (inScopeBindings up).filter (fun b =>
        !nsDef.any (fun d => xmlStrEqual d.pfx b.pfx))

/-- The target URI of the specification: the Alias Table entry for the URI
of `ns` if there is one, otherwise the URI of `ns`. -/
def targetURI (ctxt : xsltTransformContext) (ns : xmlNs) : Option String :=
  match xmlHashLookup ctxt.style.nsAliases ns.href with
  | some r => some r
  | none => ns.href

/-- The fast path of the specification applies: the output location is an
element that carries a namespace binding whose URI is the original URI of the
source binding. -/
def fastPath (out : xmlNode) (ns : xmlNs) : Prop :=
  out.type = xmlElementType.XML_ELEMENT_NODE ∧
    ∃ ons s, out.ns = some ons ∧ ons.href = some s ∧ ns.href = some s

/-- The namespace the node is in is one of the declarations in scope at the
node. A parsed tree has this property; the Scope Resolver does not keep it,
since a declaration that it adds to a node can shadow the declaration of the
namespace the node is in. -/
def nsDeclared (out : xmlNode) : Prop :=
  ∀ ons, out.ns = some ons → ons ∈ inScopeBindings out

/-- The binding a prefix value of a rename declaration resolves to at the
declaring node, in the words of the specification: the literal value
`#default` resolves to the in-scope binding with no prefix, any other value
to the in-scope binding with that prefix. -/
def resolvePrefix (node : xmlNode) (value : String) : Option xmlNs :=
  if value = "#default" then xmlSearchNs node none
  else xmlSearchNs node (some value)

/-- The declaring node carries both attributes and their prefixes resolve to
in-scope bindings with the URIs `s` (stylesheet side) and `r` (result
side). -/
def declaresAlias (node : xmlNode) (s r : String) : Prop :=
  ∃ sp rp sNs rNs,
    xmlGetNsProp node "stylesheet-prefix" XSLT_NAMESPACE = some sp ∧
    xmlGetNsProp node "result-prefix" XSLT_NAMESPACE = some rp ∧
    resolvePrefix node sp = some sNs ∧ sNs.href = some s ∧
    resolvePrefix node rp = some rNs ∧ rNs.href = some r

/-- The function `f` of the List Cloner's reference definition: the binding
with the same prefix and with the Alias Table entry for its URI if there is
one, otherwise with its own URI. -/
def aliasImage (ctxt : xsltTransformContext) (c : xmlNs) : xmlNs :=
  match xmlHashLookup ctxt.style.nsAliases c.href with
  | some u => ⟨some u, c.pfx⟩
  | none => ⟨c.href, c.pfx⟩

/-- A source binding whose URI is not the Reserved Rule Namespace. -/
def notReserved (c : xmlNs) : Bool := !xmlStrEqual c.href (some XSLT_NAMESPACE)

/-- The outcomes of the binding creations of one `xsltCopyNamespaceList`
call, one per non-reserved source entry, in order; `none` is a creation that
failed. -/
def creations (ctxt : xsltTransformContext) :
    Option xmlNode → List xmlNs → List (Option xmlNs)
  | _, [] => []
  | node, cur :: next =>
    if notReserved cur then
      (xsltCopyNamespaceList.create ctxt node cur).1 ::
        creations ctxt (xsltCopyNamespaceList.create ctxt node cur).2 next
    else creations ctxt node next

/-! ## Example data -/

/-- An element without namespace, declarations, attributes or parent. -/
def freshElement : xmlNode :=
  ⟨xmlElementType.XML_ELEMENT_NODE, none, [], [], none⟩

/-- A context whose Alias Table is `urn:a -> urn:b` (Scenario A). -/
def ctxtAB : xsltTransformContext := ⟨⟨some [("urn:a", "urn:b")]⟩⟩

/-- A context without Alias Table. -/
def ctxtNone : xsltTransformContext := ⟨⟨none⟩⟩

/-- The source binding `xmlns:foo="urn:a"`. -/
def nsFooA : xmlNs := ⟨some "urn:a", some "foo"⟩

/-- An element that already declares the prefix `foo`, for another URI. -/
def elementFooZ : xmlNode :=
  ⟨xmlElementType.XML_ELEMENT_NODE, none, [⟨some "urn:z", some "foo"⟩], [],
    none⟩

/-- The fresh element after `xmlns:foo="urn:a"` was attached to it. -/
def elementFooA : xmlNode :=
  ⟨xmlElementType.XML_ELEMENT_NODE, none, [nsFooA], [], none⟩

/-- The element `<a:x xmlns:a="urn:a" xmlns:b="urn:b">`, itself in the
namespace `urn:a`. -/
def elementAB : xmlNode :=
  ⟨xmlElementType.XML_ELEMENT_NODE, some ⟨some "urn:a", some "a"⟩,
    [⟨some "urn:a", some "a"⟩, ⟨some "urn:b", some "b"⟩], [], none⟩

/-- A fresh element whose parent is `elementAB`. -/
def childOfAB : xmlNode :=
  ⟨xmlElementType.XML_ELEMENT_NODE, none, [], [], some elementAB⟩

/-- A fresh element whose parent is `elementFooZ`. -/
def childOfFooZ : xmlNode :=
  ⟨xmlElementType.XML_ELEMENT_NODE, none, [], [], some elementFooZ⟩

/-- The XSLT namespace bound to the prefix `xsl`. -/
def nsXsl : xmlNs := ⟨some XSLT_NAMESPACE, some "xsl"⟩

/-- The declarations in scope in the example stylesheet. -/
def stylesheetNsDef : List xmlNs :=
  [nsXsl, ⟨some "urn:a", some "a"⟩, ⟨some "urn:b", some "b"⟩,
    ⟨some "urn:c", some "c"⟩]

/-- The stylesheet element
`<xsl:stylesheet xmlns:xsl=".." xmlns:a="urn:a" xmlns:b="urn:b" xmlns:c="urn:c">`. -/
def stylesheetRoot : xmlNode :=
  ⟨xmlElementType.XML_ELEMENT_NODE, some nsXsl, stylesheetNsDef, [], none⟩

/-- The declaration
`<xsl:namespace-alias xsl:stylesheet-prefix="a" xsl:result-prefix="b"/>`;
both attributes are in the XSLT namespace, where `xsltNamespaceAlias` looks
for them. -/
def aliasAtoB : xmlNode :=
  ⟨xmlElementType.XML_ELEMENT_NODE, some nsXsl, [],
    [⟨"stylesheet-prefix", some nsXsl, "a"⟩,
      ⟨"result-prefix", some nsXsl, "b"⟩],
    some stylesheetRoot⟩

/-- The declaration
`<xsl:namespace-alias xsl:stylesheet-prefix="a" xsl:result-prefix="c"/>`. -/
def aliasAtoC : xmlNode :=
  ⟨xmlElementType.XML_ELEMENT_NODE, some nsXsl, [],
    [⟨"stylesheet-prefix", some nsXsl, "a"⟩,
      ⟨"result-prefix", some nsXsl, "c"⟩],
    some stylesheetRoot⟩

/-- The declaration
`<xsl:namespace-alias xsl:stylesheet-prefix="#default" xsl:result-prefix="b"/>`,
in a stylesheet without default namespace. -/
def aliasDefaultToB : xmlNode :=
  ⟨xmlElementType.XML_ELEMENT_NODE, some nsXsl, [],
    [⟨"stylesheet-prefix", some nsXsl, "#default"⟩,
      ⟨"result-prefix", some nsXsl, "b"⟩],
    some stylesheetRoot⟩

/-- A stylesheet whose Alias Table was not created yet. -/
def styleNone : xsltStylesheet := ⟨none⟩

/-- A source list of three ordinary bindings; the second has the prefix
`foo`. -/
def sourceBFooC : List xmlNs :=
  [⟨some "urn:b", some "b"⟩, ⟨some "urn:a", some "foo"⟩,
    ⟨some "urn:c", some "c"⟩]

/-- The source list of Scenario C: the XSLT declaration, then an ordinary
one. -/
def sourceXslFoo : List xmlNs := [nsXsl, nsFooA]

/-- The element `elementFooZ` after `sourceBFooC` was cloned onto it. -/
def elementFooZBC : xmlNode :=
  ⟨xmlElementType.XML_ELEMENT_NODE, none,
    [⟨some "urn:z", some "foo"⟩, ⟨some "urn:b", some "b"⟩,
      ⟨some "urn:c", some "c"⟩], [], none⟩

/-- A text node whose parent is `elementFooZ`. -/
def textOfFooZ : xmlNode :=
  ⟨xmlElementType.XML_TEXT_NODE, none, [], [], some elementFooZ⟩

/-- A context whose Alias Table chains `urn:a -> urn:b` and
`urn:b -> urn:c`. -/
def ctxtABC : xsltTransformContext :=
  ⟨⟨some [("urn:a", "urn:b"), ("urn:b", "urn:c")]⟩⟩

/-- The element `<c:y xmlns:c="urn:c">`, which has a binding for `urn:c` in
scope and none for `urn:b`. -/
def elementC : xmlNode :=
  ⟨xmlElementType.XML_ELEMENT_NODE, some ⟨some "urn:c", some "c"⟩,
    [⟨some "urn:c", some "c"⟩], [], none⟩

/-- The declaration
`<xsl:namespace-alias xmlns="" xsl:stylesheet-prefix="a" xsl:result-prefix="#default"/>`:
the declaration `xmlns=""`, which libxml2 keeps as a binding with no prefix
and the empty URI, is the binding that `#default` resolves to. -/
def aliasAtoEmptyDefault : xmlNode :=
  ⟨xmlElementType.XML_ELEMENT_NODE, some nsXsl, [⟨some "", none⟩],
    [⟨"stylesheet-prefix", some nsXsl, "a"⟩,
      ⟨"result-prefix", some nsXsl, "#default"⟩],
    some stylesheetRoot⟩

/-- The element `<p:x xmlns:p="urn:a">`, in the namespace `urn:a`. -/
def elementPA : xmlNode :=
  ⟨xmlElementType.XML_ELEMENT_NODE, some ⟨some "urn:a", some "p"⟩,
    [⟨some "urn:a", some "p"⟩], [], none⟩

/-- A child of `elementPA` in the same namespace, `<p:y>`, without
declarations of its own. -/
def childInPA : xmlNode :=
  ⟨xmlElementType.XML_ELEMENT_NODE, some ⟨some "urn:a", some "p"⟩, [], [],
    some elementPA⟩

/-- The node `childInPA` after `xmlns:p="urn:other"` was attached to it: the
new declaration shadows the declaration of the namespace the node is in. -/
def childInPAOther : xmlNode :=
  ⟨xmlElementType.XML_ELEMENT_NODE, some ⟨some "urn:a", some "p"⟩,
    [⟨some "urn:other", some "p"⟩], [], some elementPA⟩

/-! ## Lemmas on the primitives -/

theorem xmlStrEqual_some_iff (a : Option String) (b : String) :
    xmlStrEqual a (some b) = true ↔ a = some b := by
  cases a <;> simp [xmlStrEqual]

theorem xmlStrEqual_eq_true_iff (a b : Option String) :
    xmlStrEqual a b = true ↔ a = b := by
  cases a <;> cases b <;> simp [xmlStrEqual]

theorem inScopeBindings_eq (n : xmlNode) :
    inScopeBindings n =
      match n.parent with
      | none => n.nsDef
      | some up =>
        n.nsDef ++ (inScopeBindings up).filter (fun b =>
          !n.nsDef.any (fun d => xmlStrEqual d.pfx b.pfx)) := by
  cases n with
  | mk t ns d pr parent => cases parent <;> simp [inScopeBindings]

theorem nsDef_subset_inScope (n : xmlNode) :
    ∀ b ∈ n.nsDef, b ∈ inScopeBindings n := by
  intro b hb
  rw [inScopeBindings_eq]
  cases h : n.parent <;> simp [hb]

theorem find?_filter_and {α : Type} (p q : α → Bool) :
    ∀ l : List α, (l.filter p).find? q = l.find? (fun a => q a && p a)
  | [] => rfl
  | a :: l => by
    have ih := find?_filter_and p q l
    cases hp : p a <;> cases hq : q a <;>
      simp [List.filter_cons, List.find?_cons, hp, hq, ih]

theorem filter_filter_any (d nearer : List xmlNs) (l : List xmlNs) :
    (l.filter (fun b => !d.any (fun t => xmlStrEqual t.pfx b.pfx))).filter
        (fun b => !nearer.any (fun t => xmlStrEqual t.pfx b.pfx)) =
      l.filter (fun b => !(nearer ++ d).any (fun t => xmlStrEqual t.pfx b.pfx)) := by
  rw [List.filter_filter]
  congr 1
  funext b
  simp [List.any_append]

/-- The walk of `xmlSearchNsByHref` returns the first in-scope binding with
the URI asked for whose prefix is not among the nearer declarations. -/
theorem walk_eq_find (h : String) :
    ∀ (n : xmlNode) (nearer : List xmlNs),
      xmlSearchNsByHref.walk h nearer n =
        ((inScopeBindings n).filter (fun b =>
            !nearer.any (fun tst => xmlStrEqual tst.pfx b.pfx))).find?
          (fun cur => xmlStrEqual cur.href (some h))
  | ⟨_, _, d, _, none⟩, nearer => by
    rw [xmlSearchNsByHref.walk, inScopeBindings, find?_filter_and]
    cases d.find? (fun a => xmlStrEqual a.href (some h) &&
        !nearer.any (fun tst => xmlStrEqual tst.pfx a.pfx)) <;> rfl
  | ⟨_, _, d, _, some up⟩, nearer => by
    have ih := walk_eq_find h up (nearer ++ d)
    rw [xmlSearchNsByHref.walk, inScopeBindings, List.filter_append,
      List.find?_append, filter_filter_any, find?_filter_and, ih]
    cases d.find? (fun a => xmlStrEqual a.href (some h) &&
        !nearer.any (fun tst => xmlStrEqual tst.pfx a.pfx)) <;> rfl

theorem walk_nil_eq_find (h : String) (n : xmlNode) :
    xmlSearchNsByHref.walk h [] n =
      (inScopeBindings n).find? (fun cur => xmlStrEqual cur.href (some h)) := by
  rw [walk_eq_find]
  simp

theorem walk_eq_none_iff (h : String) (n : xmlNode) :
    xmlSearchNsByHref.walk h [] n = none ↔
      ∀ b ∈ inScopeBindings n, b.href ≠ some h := by
  rw [walk_nil_eq_find, List.find?_eq_none]
  constructor
  · intro H b hb hh
    exact H b hb ((xmlStrEqual_some_iff _ _).2 hh)
  · intro H b hb hh
    exact H b hb ((xmlStrEqual_some_iff _ _).1 hh)

theorem walk_some (h : String) (n : xmlNode) (b : xmlNs)
    (hb : xmlSearchNsByHref.walk h [] n = some b) :
    b ∈ inScopeBindings n ∧ b.href = some h := by
  rw [walk_nil_eq_find] at hb
  have h1 := List.find?_some hb
  exact ⟨List.mem_of_find?_eq_some hb, (xmlStrEqual_some_iff _ _).1 h1⟩

/-! ## Lemmas on `xsltGetNamespace` -/

/-- The URI computed at lines 149-154 is the target URI. -/
theorem uri_eq_targetURI (ctxt : xsltTransformContext) (ns : xmlNs) :
    (match ctxt.style.nsAliases with
      | some t =>
        match xmlHashLookup (some t) ns.href with
        | none => ns.href
        | some u => some u
      | none => ns.href) = targetURI ctxt ns := by
  unfold targetURI
  cases h : ctxt.style.nsAliases with
  | none => simp [xmlHashLookup]
  | some t => cases h2 : xmlHashLookup (some t) ns.href <;> simp [h2]

/-- The test of lines 142-144 is the fast path of the specification. -/
theorem fastPath_iff (out : xmlNode) (ns : xmlNs) :
    ((out.type == xmlElementType.XML_ELEMENT_NODE) &&
        (match out.ns with
         | none => false
         | some ons =>
           ons.href.isSome && ns.href.isSome &&
             xmlStrEqual ons.href ns.href)) = true ↔ fastPath out ns := by
  unfold fastPath
  cases hons : out.ns with
  | none => simp
  | some ons =>
    cases h1 : ons.href <;> cases h2 : ns.href <;> simp [xmlStrEqual, h1]

/-- On the fast path the call returns the namespace of the output node. -/
theorem getNamespace_fast (ctxt : xsltTransformContext) (cur : xmlNode)
    (ns : xmlNs) (out : xmlNode) (hfast : fastPath out ns) :
    xsltGetNamespace (some ctxt) (some cur) (some ns) (some out) =
      (out.ns, some out) := by
  simp only [xsltGetNamespace, (fastPath_iff out ns).2 hfast, if_true]

/-- Past the fast path the call searches the target URI and creates with the
original URI. -/
theorem getNamespace_slow (ctxt : xsltTransformContext) (cur : xmlNode)
    (ns : xmlNs) (out : xmlNode) (hfast : ¬ fastPath out ns) :
    xsltGetNamespace (some ctxt) (some cur) (some ns) (some out) =
      match xmlSearchNsByHref (some out) (targetURI ctxt ns) with
      | some ret => (some ret, some out)
      | none =>
        if out.type = xmlElementType.XML_ELEMENT_NODE then
          xmlNewNs (some out) ns.href ns.pfx
        else (none, some out) := by
  have hcond : ((out.type == xmlElementType.XML_ELEMENT_NODE) &&
        (match out.ns with
         | none => false
         | some ons =>
           ons.href.isSome && ns.href.isSome &&
             xmlStrEqual ons.href ns.href)) = false := by
    cases hc : ((out.type == xmlElementType.XML_ELEMENT_NODE) &&
        (match out.ns with
         | none => false
         | some ons =>
           ons.href.isSome && ns.href.isSome &&
             xmlStrEqual ons.href ns.href)) with
    | false => rfl
    | true => exact absurd ((fastPath_iff out ns).1 hc) hfast
  simp only [xsltGetNamespace, hcond, uri_eq_targetURI]
  rfl

/-- When no declaration on the node has the prefix, `xmlNewNs` adds the
declaration at the end of the list of an element. -/
theorem xmlNewNs_element (out : xmlNode) (href pfx : Option String)
    (helem : out.type = xmlElementType.XML_ELEMENT_NODE)
    (hpfx : ∀ b ∈ out.nsDef, b.pfx ≠ pfx) :
    xmlNewNs (some out) href pfx =
      (some ⟨href, pfx⟩,
        some { out with nsDef := out.nsDef ++ [⟨href, pfx⟩] }) := by
  have hany : out.nsDef.any (fun prev => xmlStrEqual prev.pfx pfx) = false := by
    rw [List.any_eq_false]
    intro b hb hx
    exact hpfx b hb ((xmlStrEqual_eq_true_iff _ _).1 hx)
  simp [xmlNewNs, helem, hany]

/-- The outcome of `xmlNewNs` on a node: refused with the node unchanged, or
accepted with the declaration added behind the others. -/
theorem xmlNewNs_cases (out : xmlNode) (href pfx : Option String) :
    xmlNewNs (some out) href pfx = (none, some out) ∨
      xmlNewNs (some out) href pfx =
        (some ⟨href, pfx⟩,
          some { out with nsDef := out.nsDef ++ [⟨href, pfx⟩] }) := by
  unfold xmlNewNs
  simp only []
  split
  · exact Or.inl rfl
  · split
    · exact Or.inl rfl
    · exact Or.inr rfl

/-- In a node where no in-scope binding has the URI `s`, a declaration with
the URI `s` added behind the others is what the search for `s` finds. -/
theorem walk_after_append (s : String) (out : xmlNode) (pfx : Option String)
    (hnone : xmlSearchNsByHref.walk s [] out = none) :
    xmlSearchNsByHref.walk s []
        { out with nsDef := out.nsDef ++ [⟨some s, pfx⟩] } =
      some ⟨some s, pfx⟩ := by
  have hdef : ∀ b ∈ out.nsDef, b.href ≠ some s := fun b hb =>
    (walk_eq_none_iff s out).1 hnone b (nsDef_subset_inScope out b hb)
  have hfind : out.nsDef.find? (fun cur => xmlStrEqual cur.href (some s)) =
      none := by
    rw [List.find?_eq_none]
    intro b hb hx
    exact hdef b hb ((xmlStrEqual_some_iff _ _).1 hx)
  have hnew : xmlStrEqual (some s) (some s) = true :=
    (xmlStrEqual_some_iff _ _).2 rfl
  cases out with
  | mk t n d pr parent =>
    simp only [] at hfind
    cases parent <;>
      simp only [xmlSearchNsByHref.walk, List.any_nil, Bool.not_false,
        Bool.and_true, List.find?_append, hfind, List.find?_cons, hnew,
        Option.none_or]

/-! ## The Scope Resolver: claims C1, C2, C9, C10 -/

/-- An element that declares the prefix of `ns` already gets no second
declaration of it: with no Alias Table, the source binding
`xmlns:foo="urn:a"` and an element that declares `foo` for another URI, no
in-scope binding has the target URI, and `xsltGetNamespace` returns no
binding and attaches nothing. -/
theorem getNamespace_prefix_taken :
    (∀ b ∈ inScopeBindings elementFooZ, b.href ≠ targetURI ctxtNone nsFooA) ∧
    xsltGetNamespace (some ctxtNone) (some freshElement) (some nsFooA)
      (some elementFooZ) = (none, some elementFooZ) :=
  ⟨by decide, rfl⟩

/-- The create path: when `ns` has a URI, `out` is an element, the fast path
does not apply, no in-scope binding of `out` has the target URI and `out`
declares nothing for the prefix of `ns`, `xsltGetNamespace` appends one new
binding to the declarations of `out` and returns it; the binding has the
prefix and the original URI of `ns`. -/
theorem getNamespace_create (ctxt : xsltTransformContext) (cur : xmlNode)
    (ns : xmlNs) (out : xmlNode) (s : String)
    (hs : ns.href = some s)
    (helem : out.type = xmlElementType.XML_ELEMENT_NODE)
    (hfast : ¬ fastPath out ns)
    (hscope : ∀ b ∈ inScopeBindings out, b.href ≠ targetURI ctxt ns)
    (hpfx : ∀ b ∈ out.nsDef, b.pfx ≠ ns.pfx) :
    xsltGetNamespace (some ctxt) (some cur) (some ns) (some out) =
      (some ⟨some s, ns.pfx⟩,
        some { out with nsDef := out.nsDef ++ [⟨some s, ns.pfx⟩] }) := by
  rw [getNamespace_slow ctxt cur ns out hfast]
  have hnone : xmlSearchNsByHref (some out) (targetURI ctxt ns) = none := by
    cases ht : targetURI ctxt ns with
    | none => rfl
    | some t =>
      simp only [xmlSearchNsByHref]
      rw [walk_eq_none_iff]
      intro b hb
      rw [← ht]
      exact hscope b hb
  rw [hnone]
  simp only []
  rw [if_pos helem, xmlNewNs_element out ns.href ns.pfx helem hpfx, hs]

/-- Without renaming the Scope Resolver is idempotent: when the target URI
of `ns` is its own URI, a second call on the node left by the first returns
the same binding and leaves the node as the first call left it. -/
theorem getNamespace_twice_same_uri (ctxt : xsltTransformContext)
    (cur : xmlNode) (ns : xmlNs) (out : xmlNode) (s : String)
    (hs : ns.href = some s) (ht : targetURI ctxt ns = some s) :
    xsltGetNamespace (some ctxt) (some cur) (some ns)
        (xsltGetNamespace (some ctxt) (some cur) (some ns) (some out)).2 =
      xsltGetNamespace (some ctxt) (some cur) (some ns) (some out) := by
  by_cases hf : fastPath out ns
  · have e := getNamespace_fast ctxt cur ns out hf
    rw [e]
    exact e
  · have e := getNamespace_slow ctxt cur ns out hf
    rw [ht] at e
    simp only [xmlSearchNsByHref] at e
    cases hw : xmlSearchNsByHref.walk s [] out with
    | some b =>
      rw [hw] at e
      simp only [] at e
      have e2 := e
      rw [e]
      exact e2
    | none =>
      rw [hw] at e
      simp only [] at e
      by_cases helem : out.type = xmlElementType.XML_ELEMENT_NODE
      · rw [if_pos helem] at e
        rcases xmlNewNs_cases out ns.href ns.pfx with hr | hr
        · rw [hr] at e
          have e2 := e
          rw [e]
          exact e2
        · rw [hr] at e
          rw [e]
          simp only []
          have hf2 : ¬ fastPath
              { out with nsDef := out.nsDef ++ [⟨ns.href, ns.pfx⟩] } ns :=
            fun h => hf h
          rw [getNamespace_slow ctxt cur ns _ hf2, ht]
          simp only [xmlSearchNsByHref]
          rw [hs, walk_after_append s out ns.pfx hw]
      · rw [if_neg helem] at e
        have e2 := e
        rw [e]
        exact e2

/-- C1 at its failing input (Scenario A): the Alias Table maps `urn:a` to
`urn:b`, so the target URI of `xmlns:foo="urn:a"` is `urn:b`; the output
node is a fresh element, on which the fast path does not apply and nothing
with the URI `urn:b` is in scope. The binding that `xsltGetNamespace`
attaches and returns has the prefix `foo` and the URI `urn:a`, the original
URI, not the target URI. -/
theorem C1_scenario_A_keeps_original_uri :
    targetURI ctxtAB nsFooA = some "urn:b" ∧
    freshElement.type = xmlElementType.XML_ELEMENT_NODE ∧
    ¬ fastPath freshElement nsFooA ∧
    (∀ b ∈ inScopeBindings freshElement, b.href ≠ some "urn:b") ∧
    xsltGetNamespace (some ctxtAB) (some freshElement) (some nsFooA)
        (some freshElement) =
      (some ⟨some "urn:a", some "foo"⟩,
        some { freshElement with nsDef := [⟨some "urn:a", some "foo"⟩] }) := by
  refine ⟨rfl, rfl, ?_, by decide, rfl⟩
  rintro ⟨_, ons, s, h, _⟩
  cases h

/-- C2 at its failing input (Scenario A resolved twice): with the alias
`urn:a -> urn:b`, the first call on a fresh element attaches and returns
`xmlns:foo="urn:a"`; the second call, on the element left by the first,
returns no binding at all. -/
theorem C2_second_call_returns_nothing :
    xsltGetNamespace (some ctxtAB) (some freshElement) (some nsFooA)
        (some freshElement) = (some nsFooA, some elementFooA) ∧
    xsltGetNamespace (some ctxtAB) (some freshElement) (some nsFooA)
        (some elementFooA) = (none, some elementFooA) :=
  ⟨rfl, rfl⟩

/-- C9, refuted as stated: with the alias `urn:a -> urn:b` and the element
`<a:x xmlns:a="urn:a" xmlns:b="urn:b">`, a binding with the target URI
`urn:b` is in scope, yet the binding returned for `xmlns:foo="urn:a"` is the
element's own one, whose URI is `urn:a`. -/
theorem C9_counterexample_fast_path :
    (∃ b ∈ inScopeBindings elementAB, b.href = targetURI ctxtAB nsFooA) ∧
    ¬ (∃ b, (xsltGetNamespace (some ctxtAB) (some freshElement) (some nsFooA)
          (some elementAB)).1 = some b ∧
        b.href = targetURI ctxtAB nsFooA) := by
  constructor
  · exact ⟨⟨some "urn:b", some "b"⟩, by decide, by decide⟩
  · rintro ⟨b, hb, hh⟩
    have h1 : (xsltGetNamespace (some ctxtAB) (some freshElement)
        (some nsFooA) (some elementAB)).1 = some ⟨some "urn:a", some "a"⟩ :=
      rfl
    rw [h1] at hb
    cases hb
    revert hh
    decide

/-- C9, amended: when the target URI is `t` and some binding in scope at
`out` has URI `t`, `xsltGetNamespace` leaves `out` unchanged and returns an
existing binding: the namespace of the element `out`, whose URI is the
original URI of `ns`, when the fast path applies, otherwise a binding in
scope at `out` whose URI is `t`. -/
theorem C9_reuse (ctxt : xsltTransformContext) (cur : xmlNode) (ns : xmlNs)
    (out : xmlNode) (t : String)
    (ht : targetURI ctxt ns = some t)
    (hscope : ∃ b ∈ inScopeBindings out, b.href = some t) :
    ∃ b : xmlNs,
      xsltGetNamespace (some ctxt) (some cur) (some ns) (some out) =
        (some b, some out) ∧
      ((fastPath out ns ∧ out.ns = some b ∧ b.href = ns.href) ∨
        (¬ fastPath out ns ∧ b ∈ inScopeBindings out ∧ b.href = some t)) := by
  by_cases hf : fastPath out ns
  · obtain ⟨helem, ons, s, hons, h1, h2⟩ := hf
    refine ⟨ons, ?_, Or.inl ⟨⟨helem, ons, s, hons, h1, h2⟩, hons, ?_⟩⟩
    · rw [getNamespace_fast ctxt cur ns out ⟨helem, ons, s, hons, h1, h2⟩,
        hons]
    · rw [h1, h2]
  · have hsearch : ∃ b, xmlSearchNsByHref.walk t [] out = some b := by
      cases hw : xmlSearchNsByHref.walk t [] out with
      | some b => exact ⟨b, rfl⟩
      | none =>
        obtain ⟨b, hb, hh⟩ := hscope
        exact absurd hh ((walk_eq_none_iff t out).1 hw b hb)
    obtain ⟨b, hb⟩ := hsearch
    refine ⟨b, ?_, Or.inr ⟨hf, walk_some t out b hb⟩⟩
    rw [getNamespace_slow ctxt cur ns out hf, ht]
    simp [xmlSearchNsByHref, hb]

/-- C9, amended, at Scenario B with an alias: the target URI of
`xmlns:foo="urn:a"` is `urn:b`, the binding `xmlns:b="urn:b"` declared on the
parent is in scope, and it is the binding returned; the node is unchanged. -/
theorem C9_reuse_witness :
    targetURI ctxtAB nsFooA = some "urn:b" ∧
    (∃ b ∈ inScopeBindings childOfAB, b.href = some "urn:b") ∧
    ∃ b : xmlNs,
      xsltGetNamespace (some ctxtAB) (some freshElement) (some nsFooA)
          (some childOfAB) = (some b, some childOfAB) ∧
      ((fastPath childOfAB nsFooA ∧ childOfAB.ns = some b ∧
          b.href = nsFooA.href) ∨
        (¬ fastPath childOfAB nsFooA ∧ b ∈ inScopeBindings childOfAB ∧
          b.href = some "urn:b")) :=
  ⟨rfl, ⟨⟨some "urn:b", some "b"⟩, by decide, rfl⟩,
    C9_reuse ctxtAB freshElement nsFooA childOfAB "urn:b" rfl
      ⟨⟨some "urn:b", some "b"⟩, by decide, rfl⟩⟩

/-- Where the namespace of `out` is one of its in-scope declarations and no
in-scope binding has the URI of `ns`, the fast path does not apply. -/
theorem not_fastPath_of_nsDeclared (ns : xmlNs) (out : xmlNode)
    (hwf : nsDeclared out)
    (hscope : ∀ b ∈ inScopeBindings out, b.href ≠ ns.href) :
    ¬ fastPath out ns := by
  rintro ⟨_, ons, u, hons, h1, h2⟩
  exact hscope ons (hwf ons hons) (by rw [h1, h2])

/-- C10, refuted as stated: the node `childInPAOther` is left by the Scope
Resolver itself, which attaches `xmlns:p="urn:other"` to `childInPA`. On it,
with no Alias Table and the source binding `xmlns:foo="urn:a"`, every
condition of the claim holds: it is an element, no binding in scope has the
URI `urn:a` (the declaration on the parent is shadowed), and it declares
nothing for `foo`. Yet the call attaches nothing and returns the node's own
namespace binding, `(p, urn:a)`, through the fast path. -/
theorem C10_counterexample_own_namespace :
    xsltGetNamespace (some ctxtNone) (some freshElement)
        (some ⟨some "urn:other", some "p"⟩) (some childInPA) =
      (some ⟨some "urn:other", some "p"⟩, some childInPAOther) ∧
    xmlHashLookup ctxtNone.style.nsAliases (some "urn:a") = none ∧
    childInPAOther.type = xmlElementType.XML_ELEMENT_NODE ∧
    (∀ b ∈ inScopeBindings childInPAOther, b.href ≠ some "urn:a") ∧
    (∀ b ∈ childInPAOther.nsDef, b.pfx ≠ nsFooA.pfx) ∧
    xsltGetNamespace (some ctxtNone) (some freshElement) (some nsFooA)
        (some childInPAOther) =
      (some ⟨some "urn:a", some "p"⟩, some childInPAOther) :=
  ⟨rfl, rfl, rfl, (by decide), (by decide), rfl⟩

/-- C10, amended (Scenario D): when the Alias Table has no entry for the URI
`s` of `ns` (or there is no table), `out` is an element on which the fast
path does not apply, no binding in scope at `out` has URI `s` and `out`
declares nothing for the prefix of `ns`, `xsltGetNamespace` appends to the
declarations of `out` and returns a new binding with exactly the URI `s` and
the prefix of `ns`. -/
theorem C10_no_alias_creates_original (ctxt : xsltTransformContext)
    (cur : xmlNode) (ns : xmlNs) (out : xmlNode) (s : String)
    (hs : ns.href = some s)
    (hnoalias : xmlHashLookup ctxt.style.nsAliases (some s) = none)
    (helem : out.type = xmlElementType.XML_ELEMENT_NODE)
    (hfast : ¬ fastPath out ns)
    (hscope : ∀ b ∈ inScopeBindings out, b.href ≠ some s)
    (hpfx : ∀ b ∈ out.nsDef, b.pfx ≠ ns.pfx) :
    xsltGetNamespace (some ctxt) (some cur) (some ns) (some out) =
      (some ⟨some s, ns.pfx⟩,
        some { out with nsDef := out.nsDef ++ [⟨some s, ns.pfx⟩] }) := by
  have ht : targetURI ctxt ns = some s := by simp [targetURI, hs, hnoalias]
  exact getNamespace_create ctxt cur ns out s hs helem hfast
    (by rw [ht]; exact hscope) hpfx

/-- C10, amended, at a concrete input: no Alias Table, the source binding
`xmlns:foo="urn:a"`, and a child element, without namespace or declarations
of its own, of an element that declares `xmlns:foo="urn:z"`. -/
theorem C10_no_alias_creates_original_witness :
    xmlHashLookup ctxtNone.style.nsAliases (some "urn:a") = none ∧
    ¬ fastPath childOfFooZ nsFooA ∧
    (∀ b ∈ inScopeBindings childOfFooZ, b.href ≠ some "urn:a") ∧
    (∀ b ∈ childOfFooZ.nsDef, b.pfx ≠ nsFooA.pfx) ∧
    xsltGetNamespace (some ctxtNone) (some freshElement) (some nsFooA)
        (some childOfFooZ) =
      (some ⟨some "urn:a", nsFooA.pfx⟩,
        some { childOfFooZ with
          nsDef := childOfFooZ.nsDef ++ [⟨some "urn:a", nsFooA.pfx⟩] }) :=
  have hf : ¬ fastPath childOfFooZ nsFooA := by
    rintro ⟨_, ons, u, h, _⟩
    cases h
  ⟨rfl, hf, (by decide), (by decide),
    C10_no_alias_creates_original ctxtNone freshElement nsFooA childOfFooZ
      "urn:a" rfl rfl rfl hf (by decide) (by decide)⟩

/-! ## Lemmas on the Alias Table -/

theorem xmlHashLookup_eq_none_iff (t : xmlHashTable) (n : String) :
    xmlHashLookup (some t) (some n) = none ↔
      t.any (fun e => e.1 == n) = false := by
  simp only [xmlHashLookup, Option.map_eq_none', List.find?_eq_none,
    List.any_eq_false]

theorem xmlHashLookup_append_of_none (t : xmlHashTable) (n r u : String)
    (h : xmlHashLookup (some t) (some n) = none) :
    xmlHashLookup (some (t ++ [(n, r)])) (some u) =
      if u = n then some r else xmlHashLookup (some t) (some u) := by
  by_cases hu : u = n
  · subst hu
    have h1 : t.find? (fun e => e.1 == u) = none := by
      simpa [xmlHashLookup] using h
    simp [xmlHashLookup, List.find?_append, h1]
  · have hu2 : n ≠ u := fun e => hu e.symm
    simp only [xmlHashLookup, List.find?_append, if_neg hu]
    cases t.find? (fun e => e.1 == u) <;> simp [hu2]

/-- Adding under a name that is present leaves the table alone. -/
theorem xmlHashAddEntry_present (t : xmlHashTable) (n r v : String)
    (h : xmlHashLookup (some t) (some n) = some v) :
    xmlHashAddEntry (some t) (some n) r = (-1, some t) := by
  have hany : t.any (fun e => e.1 == n) = true := by
    cases ha : t.any (fun e => e.1 == n) with
    | true => rfl
    | false =>
      rw [(xmlHashLookup_eq_none_iff t n).2 ha] at h
      cases h
  simp [xmlHashAddEntry, hany]

/-- Adding under a name that is absent puts the entry behind the others. -/
theorem xmlHashAddEntry_absent (t : xmlHashTable) (n r : String)
    (h : xmlHashLookup (some t) (some n) = none) :
    xmlHashAddEntry (some t) (some n) r = (0, some (t ++ [(n, r)])) := by
  simp [xmlHashAddEntry, (xmlHashLookup_eq_none_iff t n).1 h]

/-- What `xsltNamespaceAlias` does on a well-formed declaration: one
`xmlHashAddEntry` on the table, created first when it is `NULL`. -/
theorem xsltNamespaceAlias_of_declares (style : xsltStylesheet)
    (node : xmlNode) (s r : String) (h : declaresAlias node s r) :
    xsltNamespaceAlias style node =
      ⟨(xmlHashAddEntry (some (style.nsAliases.getD [])) (some s) r).2⟩ := by
  obtain ⟨sp, rp, sNs, rNs, h1, h2, h3, h4, h5, h6⟩ := h
  have e3 : (if xmlStrEqual (some sp) (some "#default") = true then
      xmlSearchNs node none else xmlSearchNs node (some sp)) = some sNs := by
    rw [← h3]
    by_cases hd : sp = "#default" <;> simp [resolvePrefix, xmlStrEqual, hd]
  have e5 : (if xmlStrEqual (some rp) (some "#default") = true then
      xmlSearchNs node none else xmlSearchNs node (some rp)) = some rNs := by
    rw [← h5]
    by_cases hd : rp = "#default" <;> simp [resolvePrefix, xmlStrEqual, hd]
  simp only [xsltNamespaceAlias, h1, h2, xsltNamespaceAlias.register, e3, e5,
    h4, h6]
  cases hn : style.nsAliases <;> simp [xmlHashCreate, hn]

theorem xmlHashLookup_getD (o : Option xmlHashTable) (n : String) :
    xmlHashLookup (some (o.getD [])) (some n) = xmlHashLookup o (some n) := by
  cases o <;> simp [xmlHashLookup]

theorem resolvePrefix_eq (node : xmlNode) (v : String) :
    (if xmlStrEqual (some v) (some "#default") = true then
      xmlSearchNs node none else xmlSearchNs node (some v)) =
      resolvePrefix node v := by
  by_cases hd : v = "#default" <;> simp [resolvePrefix, xmlStrEqual, hd]

/-- A declaration that is not well-formed leaves the stylesheet alone. -/
theorem xsltNamespaceAlias_of_not_declares (style : xsltStylesheet)
    (node : xmlNode) (h : ¬ ∃ s r, declaresAlias node s r) :
    xsltNamespaceAlias style node = style := by
  unfold xsltNamespaceAlias
  cases h1 : xmlGetNsProp node "stylesheet-prefix" XSLT_NAMESPACE with
  | none => rfl
  | some sp =>
    cases h2 : xmlGetNsProp node "result-prefix" XSLT_NAMESPACE with
    | none => rfl
    | some rp =>
      simp only [xsltNamespaceAlias.register, resolvePrefix_eq]
      cases h3 : resolvePrefix node sp with
      | none => rfl
      | some sNs =>
        cases h4 : sNs.href with
        | none => simp [h4]
        | some s =>
          cases h5 : resolvePrefix node rp with
          | none => simp [h4]
          | some rNs =>
            cases h6 : rNs.href with
            | none => simp [h4, h6]
            | some r =>
              exact absurd
                ⟨s, r, sp, rp, sNs, rNs, h1, h2, h3, h4, h5, h6⟩ h

/-! ## The Alias Registry: claims C5, C7, C8 -/

/-- C5, refuted as stated: the declarations `a -> b` and then `a -> c` are
both well-formed, with the same source URI `urn:a`; after the second call
the Alias Table maps `urn:a` to `urn:b`, the result URI of the first, not to
`urn:c`. -/
theorem C5_counterexample_second_write_lost :
    declaresAlias aliasAtoB "urn:a" "urn:b" ∧
    declaresAlias aliasAtoC "urn:a" "urn:c" ∧
    xmlHashLookup
        (xsltNamespaceAlias (xsltNamespaceAlias styleNone aliasAtoB)
          aliasAtoC).nsAliases (some "urn:a") = some "urn:b" ∧
    xmlHashLookup
        (xsltNamespaceAlias (xsltNamespaceAlias styleNone aliasAtoB)
          aliasAtoC).nsAliases (some "urn:a") ≠ some "urn:c" := by
  refine ⟨?_, ?_, by decide, by decide⟩
  · exact ⟨"a", "b", ⟨some "urn:a", some "a"⟩, ⟨some "urn:b", some "b"⟩,
      by decide, by decide, by decide, rfl, by decide, rfl⟩
  · exact ⟨"a", "c", ⟨some "urn:a", some "a"⟩, ⟨some "urn:c", some "c"⟩,
      by decide, by decide, by decide, rfl, by decide, rfl⟩

/-- C5, amended (first write wins): for two well-formed declarations, in this
order, with the same source URI `s` and the result URIs `r1` then `r2`, the
second `xsltNamespaceAlias` call leaves the stylesheet as the first call left
it, and a table that had no entry for `s` before the first call maps `s` to
`r1` after the second. -/
theorem C5_first_write_wins (style : xsltStylesheet) (n1 n2 : xmlNode)
    (s r1 r2 : String) (h1 : declaresAlias n1 s r1)
    (h2 : declaresAlias n2 s r2) :
    xsltNamespaceAlias (xsltNamespaceAlias style n1) n2 =
      xsltNamespaceAlias style n1 ∧
    (xmlHashLookup style.nsAliases (some s) = none →
      xmlHashLookup
        (xsltNamespaceAlias (xsltNamespaceAlias style n1) n2).nsAliases
        (some s) = some r1) := by
  have hfirst : ∃ t v, xsltNamespaceAlias style n1 = ⟨some t⟩ ∧
      xmlHashLookup (some t) (some s) = some v ∧
      (xmlHashLookup style.nsAliases (some s) = none → v = r1) := by
    rw [xsltNamespaceAlias_of_declares style n1 s r1 h1]
    cases hl : xmlHashLookup (some (style.nsAliases.getD [])) (some s) with
    | none =>
      refine ⟨style.nsAliases.getD [] ++ [(s, r1)], r1, ?_, ?_, fun _ => rfl⟩
      · rw [xmlHashAddEntry_absent _ _ _ hl]
      · rw [xmlHashLookup_append_of_none _ _ _ _ hl]
        simp
    | some v =>
      refine ⟨style.nsAliases.getD [], v, ?_, hl, ?_⟩
      · rw [xmlHashAddEntry_present _ _ _ _ hl]
      · intro hn
        rw [xmlHashLookup_getD, hn] at hl
        cases hl
  obtain ⟨t, v, ht, hv, hr⟩ := hfirst
  have hsecond : xsltNamespaceAlias (xsltNamespaceAlias style n1) n2 =
      xsltNamespaceAlias style n1 := by
    rw [ht, xsltNamespaceAlias_of_declares ⟨some t⟩ n2 s r2 h2]
    simp only [Option.getD_some]
    rw [xmlHashAddEntry_present _ _ _ _ hv]
  refine ⟨hsecond, fun hn => ?_⟩
  rw [hsecond, ht]
  simp only []
  rw [hv, hr hn]

/-- C5, amended, at the declarations `a -> b` then `a -> c` on a stylesheet
without table: the second call changes nothing and `urn:a` is mapped to
`urn:b`. -/
theorem C5_first_write_wins_witness :
    declaresAlias aliasAtoB "urn:a" "urn:b" ∧
    declaresAlias aliasAtoC "urn:a" "urn:c" ∧
    xsltNamespaceAlias (xsltNamespaceAlias styleNone aliasAtoB) aliasAtoC =
      xsltNamespaceAlias styleNone aliasAtoB ∧
    xmlHashLookup
      (xsltNamespaceAlias (xsltNamespaceAlias styleNone aliasAtoB)
        aliasAtoC).nsAliases (some "urn:a") = some "urn:b" :=
  have hb : declaresAlias aliasAtoB "urn:a" "urn:b" :=
    ⟨"a", "b", ⟨some "urn:a", some "a"⟩, ⟨some "urn:b", some "b"⟩,
      by decide, by decide, by decide, rfl, by decide, rfl⟩
  have hc : declaresAlias aliasAtoC "urn:a" "urn:c" :=
    ⟨"a", "c", ⟨some "urn:a", some "a"⟩, ⟨some "urn:c", some "c"⟩,
      by decide, by decide, by decide, rfl, by decide, rfl⟩
  ⟨hb, hc,
    (C5_first_write_wins styleNone aliasAtoB aliasAtoC "urn:a" "urn:b" "urn:c"
      hb hc).1,
    (C5_first_write_wins styleNone aliasAtoB aliasAtoC "urn:a" "urn:b" "urn:c"
      hb hc).2 rfl⟩

/-- C7 (soft failure is atomic): if the stylesheet-prefix attribute is
absent, or the result-prefix attribute is absent, or the value of either
attribute resolves to no in-scope binding or to a binding without URI, then
`xsltNamespaceAlias` returns the stylesheet exactly as it was: no entry is
added or changed and a table that was not created stays uncreated. -/
theorem C7_soft_failure_atomic (style : xsltStylesheet) (node : xmlNode)
    (h : xmlGetNsProp node "stylesheet-prefix" XSLT_NAMESPACE = none ∨
      xmlGetNsProp node "result-prefix" XSLT_NAMESPACE = none ∨
      ∃ v,
        (xmlGetNsProp node "stylesheet-prefix" XSLT_NAMESPACE = some v ∨
          xmlGetNsProp node "result-prefix" XSLT_NAMESPACE = some v) ∧
        ∀ b, resolvePrefix node v = some b → b.href = none) :
    xsltNamespaceAlias style node = style := by
  apply xsltNamespaceAlias_of_not_declares
  rintro ⟨s, r, sp, rp, sNs, rNs, h1, h2, h3, h4, h5, h6⟩
  rcases h with h | h | ⟨v, hv, hb⟩
  · rw [h] at h1
    cases h1
  · rw [h] at h2
    cases h2
  · rcases hv with hv | hv
    · rw [h1] at hv
      cases hv
      rw [hb sNs h3] at h4
      cases h4
    · rw [h2] at hv
      cases hv
      rw [hb rNs h5] at h6
      cases h6

/-- C7 at the declaration `#default -> b` in a stylesheet that has no
default namespace: the value `#default` resolves to no binding, nothing is
registered and the table stays uncreated. -/
theorem C7_soft_failure_atomic_witness :
    xmlGetNsProp aliasDefaultToB "stylesheet-prefix" XSLT_NAMESPACE =
      some "#default" ∧
    resolvePrefix aliasDefaultToB "#default" = none ∧
    xsltNamespaceAlias styleNone aliasDefaultToB = styleNone :=
  ⟨by decide, by decide,
    C7_soft_failure_atomic styleNone aliasDefaultToB
      (Or.inr (Or.inr ⟨"#default", Or.inl (by decide), by decide⟩))⟩

/-- C8 (success postcondition): when the declaring node carries both
attributes and their prefixes resolve to in-scope bindings with the URIs `s`
and `r`, and the Alias Table has no entry for `s` (or was not created yet),
then after `xsltNamespaceAlias` the table maps `s` to `r` and every other
URI is mapped as before. -/
theorem C8_success_postcondition (style : xsltStylesheet) (node : xmlNode)
    (s r : String) (h : declaresAlias node s r)
    (hfresh : xmlHashLookup style.nsAliases (some s) = none) :
    xmlHashLookup (xsltNamespaceAlias style node).nsAliases (some s) =
      some r ∧
    ∀ u, u ≠ s →
      xmlHashLookup (xsltNamespaceAlias style node).nsAliases (some u) =
        xmlHashLookup style.nsAliases (some u) := by
  have h0 : xmlHashLookup (some (style.nsAliases.getD [])) (some s) = none := by
    rw [xmlHashLookup_getD, hfresh]
  rw [xsltNamespaceAlias_of_declares style node s r h,
    xmlHashAddEntry_absent _ _ _ h0]
  simp only []
  constructor
  · rw [xmlHashLookup_append_of_none _ _ _ _ h0]
    simp
  · intro u hu
    rw [xmlHashLookup_append_of_none _ _ _ _ h0, if_neg hu, xmlHashLookup_getD]

/-- C8 at the declaration `a -> b` on a stylesheet without table: afterwards
`urn:a` is mapped to `urn:b`, and `urn:z`, which had no entry, has none. -/
theorem C8_success_postcondition_witness :
    declaresAlias aliasAtoB "urn:a" "urn:b" ∧
    xmlHashLookup styleNone.nsAliases (some "urn:a") = none ∧
    xmlHashLookup (xsltNamespaceAlias styleNone aliasAtoB).nsAliases
        (some "urn:a") = some "urn:b" ∧
    xmlHashLookup (xsltNamespaceAlias styleNone aliasAtoB).nsAliases
        (some "urn:z") = xmlHashLookup styleNone.nsAliases (some "urn:z") :=
  have hb : declaresAlias aliasAtoB "urn:a" "urn:b" :=
    ⟨"a", "b", ⟨some "urn:a", some "a"⟩, ⟨some "urn:b", some "b"⟩,
      by decide, by decide, by decide, rfl, by decide, rfl⟩
  ⟨hb, rfl,
    (C8_success_postcondition styleNone aliasAtoB "urn:a" "urn:b" hb rfl).1,
    (C8_success_postcondition styleNone aliasAtoB "urn:a" "urn:b" hb rfl).2
      "urn:z" (by decide)⟩

/-! ## Lemmas on `xsltCopyNamespaceList` -/

theorem xmlNode_eta (n : xmlNode) :
    ({ n with nsDef := n.nsDef } : xmlNode) = n := by
  cases n
  rfl

theorem xmlNewNs_fst (node : Option xmlNode) (href pfx : Option String) :
    (xmlNewNs node href pfx).1 = none ∨
      (xmlNewNs node href pfx).1 = some ⟨href, pfx⟩ := by
  unfold xmlNewNs
  cases node with
  | none => exact Or.inr rfl
  | some n =>
    simp only []
    split
    · exact Or.inl rfl
    · split
      · exact Or.inl rfl
      · exact Or.inr rfl

theorem xmlNewNs_snd (node : Option xmlNode) (href pfx : Option String) :
    (xmlNewNs node href pfx).2 =
      node.map (fun n =>
        { n with nsDef := n.nsDef ++ (xmlNewNs node href pfx).1.toList }) := by
  unfold xmlNewNs
  cases node with
  | none => rfl
  | some n =>
    simp only []
    split
    · simp [xmlNode_eta]
    · split
      · simp [xmlNode_eta]
      · simp

theorem create_fst (ctxt : xsltTransformContext) (node : Option xmlNode)
    (c : xmlNs) :
    (xsltCopyNamespaceList.create ctxt node c).1 = none ∨
      (xsltCopyNamespaceList.create ctxt node c).1 =
        some (aliasImage ctxt c) := by
  unfold xsltCopyNamespaceList.create aliasImage
  cases xmlHashLookup ctxt.style.nsAliases c.href with
  | none => exact xmlNewNs_fst node c.href c.pfx
  | some u => exact xmlNewNs_fst node (some u) c.pfx

theorem create_snd (ctxt : xsltTransformContext) (node : Option xmlNode)
    (c : xmlNs) :
    (xsltCopyNamespaceList.create ctxt node c).2 =
      node.map (fun n =>
        { n with
          nsDef := n.nsDef ++
            (xsltCopyNamespaceList.create ctxt node c).1.toList }) := by
  unfold xsltCopyNamespaceList.create
  cases xmlHashLookup ctxt.style.nsAliases c.href with
  | none => exact xmlNewNs_snd node c.href c.pfx
  | some u => exact xmlNewNs_snd node (some u) c.pfx

/-- A creation that fails leaves the node alone. -/
theorem create_snd_of_none (ctxt : xsltTransformContext)
    (node : Option xmlNode) (c : xmlNs)
    (h : (xsltCopyNamespaceList.create ctxt node c).1 = none) :
    (xsltCopyNamespaceList.create ctxt node c).2 = node := by
  rw [create_snd, h]
  cases node <;> simp [xmlNode_eta]

theorem loop_reserved (ctxt : xsltTransformContext) (node : Option xmlNode)
    (ret : List xmlNs) (p : Option xmlNs) (c : xmlNs) (next : List xmlNs)
    (h : notReserved c = false) :
    xsltCopyNamespaceList.loop ctxt node ret p (c :: next) =
      xsltCopyNamespaceList.loop ctxt node ret p next := by
  unfold notReserved at h
  rw [xsltCopyNamespaceList.loop, if_neg (by simp [h])]

theorem loop_first (ctxt : xsltTransformContext) (node : Option xmlNode)
    (ret : List xmlNs) (c : xmlNs) (next : List xmlNs)
    (h : notReserved c = true) :
    xsltCopyNamespaceList.loop ctxt node ret none (c :: next) =
      xsltCopyNamespaceList.loop ctxt
        (xsltCopyNamespaceList.create ctxt node c).2
        (xsltCopyNamespaceList.create ctxt node c).1.toList
        (xsltCopyNamespaceList.create ctxt node c).1 next := by
  unfold notReserved at h
  rw [xsltCopyNamespaceList.loop, if_pos h]

theorem loop_link (ctxt : xsltTransformContext) (node : Option xmlNode)
    (ret : List xmlNs) (x : xmlNs) (c : xmlNs) (next : List xmlNs)
    (h : notReserved c = true) :
    xsltCopyNamespaceList.loop ctxt node ret (some x) (c :: next) =
      xsltCopyNamespaceList.loop ctxt
        (xsltCopyNamespaceList.create ctxt node c).2
        (ret ++ (xsltCopyNamespaceList.create ctxt node c).1.toList)
        (xsltCopyNamespaceList.create ctxt node c).1 next := by
  unfold notReserved at h
  rw [xsltCopyNamespaceList.loop, if_pos h]

/-- The node after the loop does not depend on the pointers `ret` and `p`. -/
theorem loop_snd_indep (ctxt : xsltTransformContext) :
    ∀ (L : List xmlNs) (node : Option xmlNode) (ret ret2 : List xmlNs)
      (p p2 : Option xmlNs),
      (xsltCopyNamespaceList.loop ctxt node ret p L).2 =
        (xsltCopyNamespaceList.loop ctxt node ret2 p2 L).2
  | [], _, _, _, _, _ => by simp [xsltCopyNamespaceList.loop]
  | c :: next, node, ret, ret2, p, p2 => by
    cases h : notReserved c with
    | false =>
      rw [loop_reserved ctxt node ret p c next h,
        loop_reserved ctxt node ret2 p2 c next h]
      exact loop_snd_indep ctxt next node ret ret2 p p2
    | true =>
      cases p <;> cases p2 <;>
        simp only [loop_first ctxt _ _ c next h, loop_link ctxt _ _ _ c next h] <;>
        exact loop_snd_indep ctxt next _ _ _ _ _

/-- Over reserved entries only, the loop does nothing. -/
theorem loop_all_reserved (ctxt : xsltTransformContext) :
    ∀ (L : List xmlNs) (node : Option xmlNode) (ret : List xmlNs)
      (p : Option xmlNs), L.filter notReserved = [] →
      xsltCopyNamespaceList.loop ctxt node ret p L = (ret, node)
  | [], _, _, _, _ => by simp [xsltCopyNamespaceList.loop]
  | c :: next, node, ret, p, h => by
    cases hc : notReserved c with
    | true => simp [List.filter, hc] at h
    | false =>
      rw [loop_reserved ctxt node ret p c next hc]
      apply loop_all_reserved ctxt next node ret p
      simpa [List.filter, hc] using h

/-- Reserved entries have no effect on the loop. -/
theorem loop_filter (ctxt : xsltTransformContext) :
    ∀ (L : List xmlNs) (node : Option xmlNode) (ret : List xmlNs)
      (p : Option xmlNs),
      xsltCopyNamespaceList.loop ctxt node ret p L =
        xsltCopyNamespaceList.loop ctxt node ret p (L.filter notReserved)
  | [], _, _, _ => by simp
  | c :: next, node, ret, p => by
    cases hc : notReserved c with
    | false =>
      rw [loop_reserved ctxt node ret p c next hc, List.filter_cons_of_neg
        (by simp [hc])]
      exact loop_filter ctxt next node ret p
    | true =>
      rw [List.filter_cons_of_pos hc]
      cases p with
      | none =>
        rw [loop_first ctxt node ret c next hc, loop_first ctxt node ret c _ hc]
        exact loop_filter ctxt next _ _ _
      | some x =>
        rw [loop_link ctxt node ret x c next hc,
          loop_link ctxt node ret x c _ hc]
        exact loop_filter ctxt next _ _ _

/-- While every creation succeeds, a loop that has a last cell appends the
images of the non-reserved entries. -/
theorem loop_link_all (ctxt : xsltTransformContext) :
    ∀ (pre : List xmlNs) (node : Option xmlNode) (ret : List xmlNs)
      (x : xmlNs) (rest : List xmlNs),
      (∀ q ∈ creations ctxt node pre, q ≠ none) →
      ∃ y, xsltCopyNamespaceList.loop ctxt node ret (some x) (pre ++ rest) =
        xsltCopyNamespaceList.loop ctxt
          (xsltCopyNamespaceList.loop ctxt node [] none pre).2
          (ret ++ (pre.filter notReserved).map (aliasImage ctxt)) (some y) rest
  | [], node, ret, x, rest, _ => by
    exact ⟨x, by simp [xsltCopyNamespaceList.loop]⟩
  | c :: pre, node, ret, x, rest, h => by
    cases hc : notReserved c with
    | false =>
      have h2 : ∀ q ∈ creations ctxt node pre, q ≠ none := by
        intro q hq
        apply h q
        simpa [creations, hc] using hq
      obtain ⟨y, hy⟩ := loop_link_all ctxt pre node ret x rest h2
      refine ⟨y, ?_⟩
      rw [List.cons_append, loop_reserved ctxt node ret (some x) c _ hc,
        loop_reserved ctxt node [] none c pre hc,
        List.filter_cons_of_neg (by simp [hc])]
      exact hy
    | true =>
      have hq : (xsltCopyNamespaceList.create ctxt node c).1 =
          some (aliasImage ctxt c) := by
        rcases create_fst ctxt node c with h0 | h0
        · exact absurd h0 (h _ (by simp [creations, hc]))
        · exact h0
      have h2 : ∀ q ∈ creations ctxt
          (xsltCopyNamespaceList.create ctxt node c).2 pre, q ≠ none := by
        intro q hq2
        apply h q
        simp [creations, hc, hq2]
      obtain ⟨y, hy⟩ := loop_link_all ctxt pre
        (xsltCopyNamespaceList.create ctxt node c).2
        (ret ++ [aliasImage ctxt c]) (aliasImage ctxt c) rest h2
      refine ⟨y, ?_⟩
      rw [List.cons_append, loop_link ctxt node ret x c _ hc,
        loop_first ctxt node [] c pre hc, List.filter_cons_of_pos hc, hq]
      simp only [Option.toList, List.map_cons]
      rw [hy, loop_snd_indep ctxt pre _ [aliasImage ctxt c] []
        (some (aliasImage ctxt c)) none]
      simp

/-- While every creation succeeds, a loop that starts with `ret = p = NULL`
builds the images of the non-reserved entries. -/
theorem loop_first_all (ctxt : xsltTransformContext) :
    ∀ (pre : List xmlNs) (node : Option xmlNode) (rest : List xmlNs),
      (∀ q ∈ creations ctxt node pre, q ≠ none) →
      pre.filter notReserved ≠ [] →
      ∃ y, xsltCopyNamespaceList.loop ctxt node [] none (pre ++ rest) =
        xsltCopyNamespaceList.loop ctxt
          (xsltCopyNamespaceList.loop ctxt node [] none pre).2
          ((pre.filter notReserved).map (aliasImage ctxt)) (some y) rest
  | [], _, _, _, hne => by simp at hne
  | c :: pre, node, rest, h, hne => by
    cases hc : notReserved c with
    | false =>
      have h2 : ∀ q ∈ creations ctxt node pre, q ≠ none := by
        intro q hq
        apply h q
        simpa [creations, hc] using hq
      have hne2 : pre.filter notReserved ≠ [] := by
        simpa [List.filter, hc] using hne
      obtain ⟨y, hy⟩ := loop_first_all ctxt pre node rest h2 hne2
      refine ⟨y, ?_⟩
      rw [List.cons_append, loop_reserved ctxt node [] none c _ hc,
        loop_reserved ctxt node [] none c pre hc,
        List.filter_cons_of_neg (by simp [hc])]
      exact hy
    | true =>
      have hq : (xsltCopyNamespaceList.create ctxt node c).1 =
          some (aliasImage ctxt c) := by
        rcases create_fst ctxt node c with h0 | h0
        · exact absurd h0 (h _ (by simp [creations, hc]))
        · exact h0
      have h2 : ∀ q ∈ creations ctxt
          (xsltCopyNamespaceList.create ctxt node c).2 pre, q ≠ none := by
        intro q hq2
        apply h q
        simp [creations, hc, hq2]
      obtain ⟨y, hy⟩ := loop_link_all ctxt pre
        (xsltCopyNamespaceList.create ctxt node c).2
        [aliasImage ctxt c] (aliasImage ctxt c) rest h2
      refine ⟨y, ?_⟩
      rw [List.cons_append, loop_first ctxt node [] c _ hc,
        loop_first ctxt node [] c pre hc, List.filter_cons_of_pos hc, hq]
      simp only [Option.toList, List.map_cons]
      rw [hy, loop_snd_indep ctxt pre _ [aliasImage ctxt c] []
        (some (aliasImage ctxt c)) none]
      simp

/-- Every cell of the returned list was there before or is the image of a
non-reserved source entry. -/
theorem loop_fst_mem (ctxt : xsltTransformContext) :
    ∀ (L : List xmlNs) (node : Option xmlNode) (ret : List xmlNs)
      (p : Option xmlNs),
      ∀ b ∈ (xsltCopyNamespaceList.loop ctxt node ret p L).1,
        b ∈ ret ∨ ∃ c ∈ L, notReserved c = true ∧ b = aliasImage ctxt c
  | [], _, ret, _ => by
    intro b hb
    exact Or.inl (by simpa [xsltCopyNamespaceList.loop] using hb)
  | c :: next, node, ret, p => by
    intro b hb
    cases hc : notReserved c with
    | false =>
      rw [loop_reserved ctxt node ret p c next hc] at hb
      rcases loop_fst_mem ctxt next node ret p b hb with h | ⟨d, hd, h1, h2⟩
      · exact Or.inl h
      · exact Or.inr ⟨d, List.mem_cons_of_mem _ hd, h1, h2⟩
    | true =>
      have hnew : ∀ b ∈ (xsltCopyNamespaceList.create ctxt node c).1.toList,
          b = aliasImage ctxt c := by
        intro b hb
        rcases create_fst ctxt node c with h0 | h0
        · rw [h0] at hb
          simp at hb
        · rw [h0] at hb
          simpa using hb
      cases p with
      | none =>
        rw [loop_first ctxt node ret c next hc] at hb
        rcases loop_fst_mem ctxt next _ _ _ b hb with h | ⟨d, hd, h1, h2⟩
        · exact Or.inr ⟨c, List.mem_cons_self _ _, hc, hnew b h⟩
        · exact Or.inr ⟨d, List.mem_cons_of_mem _ hd, h1, h2⟩
      | some x =>
        rw [loop_link ctxt node ret x c next hc] at hb
        rcases loop_fst_mem ctxt next _ _ _ b hb with h | ⟨d, hd, h1, h2⟩
        · rcases List.mem_append.1 h with h | h
          · exact Or.inl h
          · exact Or.inr ⟨c, List.mem_cons_self _ _, hc, hnew b h⟩
        · exact Or.inr ⟨d, List.mem_cons_of_mem _ hd, h1, h2⟩

/-- The node after the loop is the node before with images of non-reserved
source entries added behind its declarations. -/
theorem loop_snd_added (ctxt : xsltTransformContext) :
    ∀ (L : List xmlNs) (node : Option xmlNode) (ret : List xmlNs)
      (p : Option xmlNs),
      ∃ added : List xmlNs,
        (xsltCopyNamespaceList.loop ctxt node ret p L).2 =
          node.map (fun n => { n with nsDef := n.nsDef ++ added }) ∧
        ∀ b ∈ added, ∃ c ∈ L, notReserved c = true ∧ b = aliasImage ctxt c
  | [], node, ret, p => by
    refine ⟨[], ?_, by simp⟩
    cases node <;> simp [xsltCopyNamespaceList.loop, xmlNode_eta]
  | c :: next, node, ret, p => by
    cases hc : notReserved c with
    | false =>
      rw [loop_reserved ctxt node ret p c next hc]
      obtain ⟨added, h1, h2⟩ := loop_snd_added ctxt next node ret p
      exact ⟨added, h1, fun b hb =>
        let ⟨d, hd, e1, e2⟩ := h2 b hb
        ⟨d, List.mem_cons_of_mem _ hd, e1, e2⟩⟩
    | true =>
      have hnew : ∀ b ∈ (xsltCopyNamespaceList.create ctxt node c).1.toList,
          b = aliasImage ctxt c := by
        intro b hb
        rcases create_fst ctxt node c with h0 | h0
        · rw [h0] at hb
          simp at hb
        · rw [h0] at hb
          simpa using hb
      have key : ∀ (r : List xmlNs) (q : Option xmlNs),
          ∃ added : List xmlNs,
            (xsltCopyNamespaceList.loop ctxt
                (xsltCopyNamespaceList.create ctxt node c).2 r q next).2 =
              node.map (fun n => { n with nsDef := n.nsDef ++ added }) ∧
            ∀ b ∈ added,
              ∃ d ∈ c :: next, notReserved d = true ∧
                b = aliasImage ctxt d := by
        intro r q
        obtain ⟨added, h1, h2⟩ := loop_snd_added ctxt next
          (xsltCopyNamespaceList.create ctxt node c).2 r q
        refine ⟨(xsltCopyNamespaceList.create ctxt node c).1.toList ++ added,
          ?_, ?_⟩
        · rw [h1, create_snd]
          cases node <;> simp
        · intro b hb
          rcases List.mem_append.1 hb with h | h
          · exact ⟨c, List.mem_cons_self _ _, hc, hnew b h⟩
          · obtain ⟨d, hd, e1, e2⟩ := h2 b h
            exact ⟨d, List.mem_cons_of_mem _ hd, e1, e2⟩
      cases p with
      | none =>
        rw [loop_first ctxt node ret c next hc]
        exact key _ _
      | some x =>
        rw [loop_link ctxt node ret x c next hc]
        exact key _ _

/-! ## The List Cloner: claims C3, C4, C6 -/

/-- C3 (reference definition): provided no binding creation fails, the list
returned by `xsltCopyNamespaceList` is `map f (filter notReserved L)` for the
source list `L`, where `f` keeps the prefix and replaces the URI by its Alias
Table entry if there is one; so the order is that of the source list, the
prefixes are unchanged and the length is the number of non-reserved source
bindings, whatever is in scope at the output node. -/
theorem C3_clone_is_map_filter (ctxt : xsltTransformContext)
    (node : Option xmlNode) (L : List xmlNs)
    (hok : ∀ q ∈ creations ctxt node L, q ≠ none) :
    (xsltCopyNamespaceList ctxt node L).1 =
        (L.filter notReserved).map (aliasImage ctxt) ∧
    ((xsltCopyNamespaceList ctxt node L).1.map xmlNs.pfx =
        (L.filter notReserved).map xmlNs.pfx) ∧
    (xsltCopyNamespaceList ctxt node L).1.length =
        (L.filter notReserved).length := by
  have main : (xsltCopyNamespaceList ctxt node L).1 =
      (L.filter notReserved).map (aliasImage ctxt) := by
    unfold xsltCopyNamespaceList
    by_cases hne : L.filter notReserved = []
    · rw [loop_all_reserved ctxt L node [] none hne, hne]
      rfl
    · obtain ⟨y, hy⟩ := loop_first_all ctxt L node [] hok hne
      rw [List.append_nil] at hy
      rw [hy]
      simp [xsltCopyNamespaceList.loop]
  refine ⟨main, ?_, ?_⟩
  · rw [main, List.map_map]
    apply List.map_congr_left
    intro c _
    simp only [Function.comp, aliasImage]
    cases xmlHashLookup ctxt.style.nsAliases c.href <;> rfl
  · rw [main, List.length_map]

/-- C3 at Scenario A and C together: the alias `urn:a -> urn:b`, a fresh
element and the source list `[xsl, foo]`; the one creation succeeds and the
list returned is the renamed binding `xmlns:foo="urn:b"`. -/
theorem C3_clone_is_map_filter_witness :
    (∀ q ∈ creations ctxtAB (some freshElement) sourceXslFoo, q ≠ none) ∧
    (sourceXslFoo.filter notReserved).map (aliasImage ctxtAB) =
        [⟨some "urn:b", some "foo"⟩] ∧
    (xsltCopyNamespaceList ctxtAB (some freshElement) sourceXslFoo).1 =
        (sourceXslFoo.filter notReserved).map (aliasImage ctxtAB) ∧
    ((xsltCopyNamespaceList ctxtAB (some freshElement) sourceXslFoo).1.map
        xmlNs.pfx = (sourceXslFoo.filter notReserved).map xmlNs.pfx) ∧
    (xsltCopyNamespaceList ctxtAB (some freshElement) sourceXslFoo).1.length =
        (sourceXslFoo.filter notReserved).length :=
  ⟨by decide, by decide,
    C3_clone_is_map_filter ctxtAB (some freshElement) sourceXslFoo
      (by decide)⟩

/-- C4 (reserved-namespace filter), with no condition on the success of the
creations: the source entries whose URI is the Reserved Rule Namespace have
no effect on the outcome of `xsltCopyNamespaceList` (list returned and output
node); cloning reserved entries only returns the empty list and leaves the
node as it was; every binding of the returned list, and every binding added
to the output node, is the image of a non-reserved source entry. -/
theorem C4_reserved_filtered (ctxt : xsltTransformContext)
    (node : Option xmlNode) (L : List xmlNs) :
    xsltCopyNamespaceList ctxt node L =
        xsltCopyNamespaceList ctxt node (L.filter notReserved) ∧
    xsltCopyNamespaceList ctxt node (L.filter (fun c => !notReserved c)) =
        ([], node) ∧
    (∀ b ∈ (xsltCopyNamespaceList ctxt node L).1,
        ∃ c ∈ L, notReserved c = true ∧ b = aliasImage ctxt c) ∧
    ∃ added : List xmlNs,
      (xsltCopyNamespaceList ctxt node L).2 =
          node.map (fun n => { n with nsDef := n.nsDef ++ added }) ∧
      ∀ b ∈ added, ∃ c ∈ L, notReserved c = true ∧ b = aliasImage ctxt c := by
  refine ⟨loop_filter ctxt L node [] none, ?_, ?_,
    loop_snd_added ctxt L node [] none⟩
  · apply loop_all_reserved
    rw [List.filter_filter]
    apply List.filter_eq_nil_iff.2
    intro c _
    cases notReserved c <;> simp
  · intro b hb
    rcases loop_fst_mem ctxt L node [] none b hb with h | h
    · cases h
    · exact h

/-- C4 at Scenario C: cloning `[xsl, foo]` onto a fresh element yields
exactly one binding, the ordinary one. -/
theorem C4_reserved_filtered_witness :
    xsltCopyNamespaceList ctxtNone (some freshElement) sourceXslFoo =
        ([nsFooA], some elementFooA) ∧
    xsltCopyNamespaceList ctxtNone (some freshElement) sourceXslFoo =
        xsltCopyNamespaceList ctxtNone (some freshElement)
          (sourceXslFoo.filter notReserved) ∧
    xsltCopyNamespaceList ctxtNone (some freshElement)
        (sourceXslFoo.filter (fun c => !notReserved c)) =
        ([], some freshElement) :=
  ⟨rfl, (C4_reserved_filtered ctxtNone (some freshElement) sourceXslFoo).1,
    (C4_reserved_filtered ctxtNone (some freshElement) sourceXslFoo).2.1⟩

/-- C6, refuted as stated: cloning `[b, foo, c]` onto an element that
declares `foo`, the creation for the second entry fails after the first was
created; the call does not stop there: it creates the binding for the third
entry too, and the list it returns is that binding alone, not the list built
before the failure. -/
theorem C6_counterexample_goes_on :
    creations ctxtNone (some elementFooZ) sourceBFooC =
        [some ⟨some "urn:b", some "b"⟩, none, some ⟨some "urn:c", some "c"⟩] ∧
    xsltCopyNamespaceList ctxtNone (some elementFooZ) sourceBFooC =
        ([⟨some "urn:c", some "c"⟩], some elementFooZBC) ∧
    (xsltCopyNamespaceList ctxtNone (some elementFooZ) sourceBFooC).1 ≠
        [⟨some "urn:b", some "b"⟩] :=
  ⟨rfl, rfl, by decide⟩

/-- C6, amended: when every creation for the entries `pre` succeeds, at
least one of them for a non-reserved entry, and the creation for the next
non-reserved entry `c` fails, `xsltCopyNamespaceList` goes on with the
entries `post` behind `c`: the output node ends as if `post` were cloned onto
the node left by `pre`. When no non-reserved entry follows `c`, the returned
list is exactly the bindings created for `pre`, in order. -/
theorem C6_failure_does_not_stop (ctxt : xsltTransformContext)
    (node : Option xmlNode) (pre : List xmlNs) (c : xmlNs)
    (post : List xmlNs)
    (hpre : ∀ q ∈ creations ctxt node pre, q ≠ none)
    (hone : pre.filter notReserved ≠ [])
    (hc : notReserved c = true)
    (hfail : (xsltCopyNamespaceList.create ctxt
        (xsltCopyNamespaceList ctxt node pre).2 c).1 = none) :
    (xsltCopyNamespaceList ctxt node (pre ++ c :: post)).2 =
        (xsltCopyNamespaceList ctxt
          (xsltCopyNamespaceList ctxt node pre).2 post).2 ∧
    (post.filter notReserved = [] →
      (xsltCopyNamespaceList ctxt node (pre ++ c :: post)).1 =
        (pre.filter notReserved).map (aliasImage ctxt)) := by
  unfold xsltCopyNamespaceList at hfail ⊢
  obtain ⟨y, hy⟩ := loop_first_all ctxt pre node (c :: post) hpre hone
  rw [hy, loop_link ctxt _ _ y c post hc, hfail,
    create_snd_of_none ctxt _ c hfail]
  constructor
  · exact loop_snd_indep ctxt post _ _ _ _ _
  · intro hpost
    rw [loop_all_reserved ctxt post _ _ _ hpost]
    simp

/-- C6, amended, at the source list `[b, foo, xsl]` cloned onto an element
that declares `foo`: the creation for `b` succeeds, the creation for `foo`
fails, only the reserved entry follows, and the returned list is the binding
created for `b`. -/
theorem C6_failure_does_not_stop_witness :
    creations ctxtNone (some elementFooZ)
        ([⟨some "urn:b", some "b"⟩] ++ nsFooA :: [nsXsl]) =
      [some ⟨some "urn:b", some "b"⟩, none] ∧
    (xsltCopyNamespaceList ctxtNone (some elementFooZ)
        ([⟨some "urn:b", some "b"⟩] ++ nsFooA :: [nsXsl])).2 =
        (xsltCopyNamespaceList ctxtNone
          (xsltCopyNamespaceList ctxtNone (some elementFooZ)
            [⟨some "urn:b", some "b"⟩]).2 [nsXsl]).2 ∧
    (xsltCopyNamespaceList ctxtNone (some elementFooZ)
        ([⟨some "urn:b", some "b"⟩] ++ nsFooA :: [nsXsl])).1 =
      ([⟨some "urn:b", some "b"⟩].filter notReserved).map
        (aliasImage ctxtNone) ∧
    ([⟨some "urn:b", some "b"⟩].filter notReserved).map (aliasImage ctxtNone) =
      [⟨some "urn:b", some "b"⟩] :=
  ⟨by decide,
    (C6_failure_does_not_stop ctxtNone (some elementFooZ)
      [⟨some "urn:b", some "b"⟩] nsFooA [nsXsl] (by decide) (by decide) rfl
      rfl).1,
    (C6_failure_does_not_stop ctxtNone (some elementFooZ)
      [⟨some "urn:b", some "b"⟩] nsFooA [nsXsl] (by decide) (by decide) rfl
      rfl).2 rfl,
    by decide⟩

/-- The URI of a binding returned by `xsltGetNamespace` is the original URI
of the source binding or the Alias Table entry for it. -/
theorem getNamespace_href (c : xsltTransformContext) (u : xmlNode)
    (n : xmlNs) (o : xmlNode) (b : xmlNs)
    (h : (xsltGetNamespace (some c) (some u) (some n) (some o)).1 = some b) :
    b.href = n.href ∨
      ∃ r, xmlHashLookup c.style.nsAliases n.href = some r ∧
        b.href = some r := by
  by_cases hf : fastPath o n
  · rw [getNamespace_fast c u n o hf] at h
    obtain ⟨_, ons, s, hons, h1, h2⟩ := hf
    simp only [] at h
    rw [hons] at h
    cases h
    exact Or.inl (by rw [h1, h2])
  · rw [getNamespace_slow c u n o hf] at h
    cases ht : targetURI c n with
    | none =>
      rw [ht] at h
      simp only [xmlSearchNsByHref] at h
      by_cases helem : o.type = xmlElementType.XML_ELEMENT_NODE
      · rw [if_pos helem] at h
        rcases xmlNewNs_cases o n.href n.pfx with hr | hr
        · rw [hr] at h
          cases h
        · rw [hr] at h
          cases h
          exact Or.inl rfl
      · rw [if_neg helem] at h
        cases h
    | some t =>
      rw [ht] at h
      simp only [xmlSearchNsByHref] at h
      cases hw : xmlSearchNsByHref.walk t [] o with
      | some ret =>
        have hret := (walk_some t o ret hw).2
        rw [hw] at h
        cases h
        unfold targetURI at ht
        cases hl : xmlHashLookup c.style.nsAliases n.href with
        | none =>
          rw [hl] at ht
          exact Or.inl (by rw [hret]; exact ht.symm)
        | some r =>
          rw [hl] at ht
          exact Or.inr ⟨r, rfl, by rw [hret]; exact ht.symm⟩
      | none =>
        rw [hw] at h
        simp only [] at h
        by_cases helem : o.type = xmlElementType.XML_ELEMENT_NODE
        · rw [if_pos helem] at h
          rcases xmlNewNs_cases o n.href n.pfx with hr | hr
          · rw [hr] at h
            cases h
          · rw [hr] at h
            cases h
            exact Or.inl rfl
        · rw [if_neg helem] at h
          cases h

/-! ## The Scope Resolver: claims C11, C12, C15, C16, C17 -/

/-- C11 (non-element location): when `out` is not an element and no binding
in scope at `out` has the target URI, `xsltGetNamespace` returns no binding
and leaves `out` as it was: nothing is created or attached. -/
theorem C11_non_element_returns_nothing (ctxt : xsltTransformContext)
    (cur : xmlNode) (ns : xmlNs) (out : xmlNode)
    (hnot : out.type ≠ xmlElementType.XML_ELEMENT_NODE)
    (hscope : ∀ b ∈ inScopeBindings out, b.href ≠ targetURI ctxt ns) :
    xsltGetNamespace (some ctxt) (some cur) (some ns) (some out) =
      (none, some out) := by
  have hfast : ¬ fastPath out ns := fun h => hnot h.1
  rw [getNamespace_slow ctxt cur ns out hfast]
  have hnone : xmlSearchNsByHref (some out) (targetURI ctxt ns) = none := by
    cases ht : targetURI ctxt ns with
    | none => rfl
    | some t =>
      simp only [xmlSearchNsByHref]
      rw [walk_eq_none_iff]
      intro b hb
      rw [← ht]
      exact hscope b hb
  rw [hnone]
  simp only []
  rw [if_neg hnot]

/-- C11 at a text node below an element that declares `xmlns:foo="urn:z"`,
with the alias `urn:a -> urn:b`: nothing with the URI `urn:b` is in scope,
and no binding is returned. -/
theorem C11_non_element_returns_nothing_witness :
    textOfFooZ.type ≠ xmlElementType.XML_ELEMENT_NODE ∧
    (∀ b ∈ inScopeBindings textOfFooZ, b.href ≠ targetURI ctxtAB nsFooA) ∧
    xsltGetNamespace (some ctxtAB) (some freshElement) (some nsFooA)
      (some textOfFooZ) = (none, some textOfFooZ) :=
  ⟨(by decide), (by decide),
    C11_non_element_returns_nothing ctxtAB freshElement nsFooA textOfFooZ
      (by decide) (by decide)⟩

/-- C12 (fast path): when `ns` has the URI `s` and `out` is an element whose
own namespace binding `ons` has the URI `s`, `xsltGetNamespace` returns `ons`
and leaves `out` as it was, whatever the Alias Table holds for `s`. -/
theorem C12_fast_path (ctxt : xsltTransformContext) (cur : xmlNode)
    (ns : xmlNs) (out : xmlNode) (ons : xmlNs) (s : String)
    (hs : ns.href = some s)
    (helem : out.type = xmlElementType.XML_ELEMENT_NODE)
    (hons : out.ns = some ons) (hhref : ons.href = some s) :
    xsltGetNamespace (some ctxt) (some cur) (some ns) (some out) =
      (some ons, some out) := by
  rw [getNamespace_fast ctxt cur ns out ⟨helem, ons, s, hons, hhref, hs⟩, hons]

/-- C12 where the Alias Table renames the URI: with the alias
`urn:a -> urn:b` and the element `<a:x xmlns:a="urn:a" xmlns:b="urn:b">`, the
binding returned for `xmlns:foo="urn:a"` is the element's own one, with the
URI `urn:a`. -/
theorem C12_fast_path_witness :
    xmlHashLookup ctxtAB.style.nsAliases (some "urn:a") = some "urn:b" ∧
    xsltGetNamespace (some ctxtAB) (some freshElement) (some nsFooA)
      (some elementAB) = (some ⟨some "urn:a", some "a"⟩, some elementAB) :=
  ⟨rfl,
    C12_fast_path ctxtAB freshElement nsFooA elementAB
      ⟨some "urn:a", some "a"⟩ "urn:a" rfl rfl rfl rfl⟩

/-- C17 (null guard): when the context, the source node, the source binding
or the output node is `NULL`, `xsltGetNamespace` returns no binding and the
output node, if there is one, is as it was. -/
theorem C17_null_guard (ctxt : Option xsltTransformContext)
    (cur : Option xmlNode) (ns : Option xmlNs) (out : Option xmlNode)
    (h : ctxt = none ∨ cur = none ∨ ns = none ∨ out = none) :
    xsltGetNamespace ctxt cur ns out = (none, out) := by
  cases ctxt <;> cases cur <;> cases out <;> cases ns <;>
    simp_all [xsltGetNamespace]

/-- C17 at a call without source binding, on an element on which a binding
would otherwise be created. -/
theorem C17_null_guard_witness :
    xsltGetNamespace (some ctxtAB) (some freshElement) none
      (some freshElement) = (none, some freshElement) :=
  C17_null_guard (some ctxtAB) (some freshElement) none (some freshElement)
    (Or.inr (Or.inr (Or.inl rfl)))

/-- C15 (frame): after any call `xsltGetNamespace(ctxt, cur, ns, out)` the
output node is either exactly as it was, or it is the node as it was with one
binding, the binding returned, added behind its declarations; its kind, its
namespace, its attributes and its chain of ancestors, with their
declarations, are as before. The context, the source node and the source
binding are only read: the call has no result for them. -/
theorem C15_frame (ctxt : Option xsltTransformContext)
    (cur : Option xmlNode) (ns : Option xmlNs) (out : Option xmlNode) :
    (xsltGetNamespace ctxt cur ns out).2 = out ∨
    ∃ o b, out = some o ∧
      xsltGetNamespace ctxt cur ns out =
        (some b, some { o with nsDef := o.nsDef ++ [b] }) := by
  by_cases hnull : ctxt = none ∨ cur = none ∨ ns = none ∨ out = none
  · left
    cases ctxt <;> cases cur <;> cases out <;> cases ns <;>
      simp_all [xsltGetNamespace]
  · obtain ⟨c, hc⟩ : ∃ c, ctxt = some c := by
      cases ctxt with
      | none => exact absurd (Or.inl rfl) hnull
      | some c => exact ⟨c, rfl⟩
    obtain ⟨u, hu⟩ : ∃ u, cur = some u := by
      cases cur with
      | none => exact absurd (Or.inr (Or.inl rfl)) hnull
      | some u => exact ⟨u, rfl⟩
    obtain ⟨n, hn⟩ : ∃ n, ns = some n := by
      cases ns with
      | none => exact absurd (Or.inr (Or.inr (Or.inl rfl))) hnull
      | some n => exact ⟨n, rfl⟩
    obtain ⟨o, ho⟩ : ∃ o, out = some o := by
      cases out with
      | none => exact absurd (Or.inr (Or.inr (Or.inr rfl))) hnull
      | some o => exact ⟨o, rfl⟩
    subst hc hu hn ho
    by_cases hf : fastPath o n
    · left
      rw [getNamespace_fast c u n o hf]
    · rw [getNamespace_slow c u n o hf]
      cases xmlSearchNsByHref (some o) (targetURI c n) with
      | some ret => exact Or.inl rfl
      | none =>
        simp only []
        by_cases helem : o.type = xmlElementType.XML_ELEMENT_NODE
        · rw [if_pos helem]
          rcases xmlNewNs_cases o n.href n.pfx with hr | hr
          · rw [hr]
            exact Or.inl rfl
          · rw [hr]
            exact Or.inr ⟨o, ⟨n.href, n.pfx⟩, rfl, rfl⟩
        · rw [if_neg helem]
          exact Or.inl rfl

/-- C16 (result URI): whenever `xsltGetNamespace` returns a binding, the
context and the source binding were given, and the URI of the binding
returned is the original URI of the source binding or the Alias Table entry
for that URI. -/
theorem C16_result_uri (ctxt : Option xsltTransformContext)
    (cur : Option xmlNode) (ns : Option xmlNs) (out : Option xmlNode)
    (b : xmlNs) (h : (xsltGetNamespace ctxt cur ns out).1 = some b) :
    ∃ c n, ctxt = some c ∧ ns = some n ∧
      (b.href = n.href ∨
        ∃ r, xmlHashLookup c.style.nsAliases n.href = some r ∧
          b.href = some r) := by
  cases ctxt with
  | none => simp [xsltGetNamespace] at h
  | some c =>
  cases cur with
  | none => simp [xsltGetNamespace] at h
  | some u =>
  cases ns with
  | none => cases out <;> simp [xsltGetNamespace] at h
  | some n =>
  cases out with
  | none => simp [xsltGetNamespace] at h
  | some o => exact ⟨c, n, rfl, rfl, getNamespace_href c u n o b h⟩

/-- C16 at a reuse under renaming: with the alias `urn:a -> urn:b`, the
binding returned for `xmlns:foo="urn:a"` below `elementAB` is
`xmlns:b="urn:b"`, whose URI is the Alias Table entry for `urn:a`. -/
theorem C16_result_uri_witness :
    (xsltGetNamespace (some ctxtAB) (some freshElement) (some nsFooA)
        (some childOfAB)).1 = some ⟨some "urn:b", some "b"⟩ ∧
    ∃ c n, some ctxtAB = some c ∧ some nsFooA = some n ∧
      ((⟨some "urn:b", some "b"⟩ : xmlNs).href = n.href ∨
        ∃ r, xmlHashLookup c.style.nsAliases n.href = some r ∧
          (⟨some "urn:b", some "b"⟩ : xmlNs).href = some r) :=
  ⟨rfl,
    C16_result_uri (some ctxtAB) (some freshElement) (some nsFooA)
      (some childOfAB) ⟨some "urn:b", some "b"⟩ rfl⟩

/-! ## Single-hop renaming and the Alias Table invariant: claims C13, C14 -/

/-- C13, refuted as stated: the Alias Table chains `urn:a -> urn:b` and
`urn:b -> urn:c`, and a binding with the URI `urn:b` is in scope at the
element `<a:x xmlns:a="urn:a" xmlns:b="urn:b">`; for the source binding
`xmlns:foo="urn:a"` the call does not search the scope and does not reuse
that binding: it returns the element's own binding, whose URI is `urn:a`. -/
theorem C13_counterexample_fast_path :
    xmlHashLookup ctxtABC.style.nsAliases (some "urn:a") = some "urn:b" ∧
    xmlHashLookup ctxtABC.style.nsAliases (some "urn:b") = some "urn:c" ∧
    (∃ b ∈ inScopeBindings elementAB, b.href = some "urn:b") ∧
    xsltGetNamespace (some ctxtABC) (some freshElement) (some nsFooA)
      (some elementAB) = (some ⟨some "urn:a", some "a"⟩, some elementAB) :=
  ⟨rfl, rfl, ⟨⟨some "urn:b", some "b"⟩, by decide, rfl⟩, rfl⟩

/-- C13, amended (single hop): when the Alias Table maps `A` to `B` and `B`
to `C`, pairwise distinct, the target URI of a source binding with the URI
`A` is `B`. In `xsltCopyNamespaceList` a creation for that entry yields
nothing or the binding with the URI `B`, and the entry alone is cloned to
that binding when `A` is not reserved and the creation is accepted. In
`xsltGetNamespace`, when the fast path does not apply and a binding with the
URI `B` is in scope, such a binding is returned and the node is unchanged;
on every path the binding returned never has the URI `C`. -/
theorem C13_single_hop (ctxt : xsltTransformContext) (A B C : String)
    (p : Option String)
    (hAB : xmlHashLookup ctxt.style.nsAliases (some A) = some B)
    (_hBC : xmlHashLookup ctxt.style.nsAliases (some B) = some C)
    (_hne1 : A ≠ B) (hne2 : B ≠ C) (hne3 : A ≠ C) :
    targetURI ctxt ⟨some A, p⟩ = some B ∧
    (∀ node,
      (xsltCopyNamespaceList.create ctxt node ⟨some A, p⟩).1 = none ∨
      (xsltCopyNamespaceList.create ctxt node ⟨some A, p⟩).1 =
        some ⟨some B, p⟩) ∧
    (∀ node, notReserved ⟨some A, p⟩ = true →
      (xsltCopyNamespaceList.create ctxt node ⟨some A, p⟩).1 ≠ none →
      (xsltCopyNamespaceList ctxt node [⟨some A, p⟩]).1 = [⟨some B, p⟩]) ∧
    (∀ cur out, ¬ fastPath out ⟨some A, p⟩ →
      (∃ b ∈ inScopeBindings out, b.href = some B) →
      ∃ b, xsltGetNamespace (some ctxt) (some cur) (some ⟨some A, p⟩)
            (some out) = (some b, some out) ∧
        b ∈ inScopeBindings out ∧ b.href = some B) ∧
    (∀ cur out b,
      (xsltGetNamespace (some ctxt) (some cur) (some ⟨some A, p⟩)
        (some out)).1 = some b → b.href ≠ some C) := by
  have ht : targetURI ctxt ⟨some A, p⟩ = some B := by
    simp [targetURI, hAB]
  have himg : aliasImage ctxt ⟨some A, p⟩ = ⟨some B, p⟩ := by
    simp [aliasImage, hAB]
  have hcreate : ∀ node,
      (xsltCopyNamespaceList.create ctxt node ⟨some A, p⟩).1 = none ∨
      (xsltCopyNamespaceList.create ctxt node ⟨some A, p⟩).1 =
        some ⟨some B, p⟩ := by
    intro node
    rw [← himg]
    exact create_fst ctxt node ⟨some A, p⟩
  refine ⟨ht, hcreate, ?_, ?_, ?_⟩
  · intro node hres hok
    unfold xsltCopyNamespaceList
    rw [loop_first ctxt node [] ⟨some A, p⟩ [] hres]
    rcases hcreate node with h0 | h0
    · exact absurd h0 hok
    · simp [xsltCopyNamespaceList.loop, h0]
  · intro cur out hf hscope
    have hsearch : ∃ b, xmlSearchNsByHref.walk B [] out = some b := by
      cases hw : xmlSearchNsByHref.walk B [] out with
      | some b => exact ⟨b, rfl⟩
      | none =>
        obtain ⟨b, hb, hh⟩ := hscope
        exact absurd hh ((walk_eq_none_iff B out).1 hw b hb)
    obtain ⟨b, hb⟩ := hsearch
    refine ⟨b, ?_, walk_some B out b hb⟩
    rw [getNamespace_slow ctxt cur ⟨some A, p⟩ out hf, ht]
    simp [xmlSearchNsByHref, hb]
  · intro cur out b hret hC
    rcases getNamespace_href ctxt cur ⟨some A, p⟩ out b hret with h | ⟨r, hr, h⟩
    · rw [hC] at h
      simp only [Option.some.injEq] at h
      exact hne3 h.symm
    · simp only [] at hr
      rw [hAB] at hr
      cases hr
      rw [hC] at h
      simp only [Option.some.injEq] at h
      exact hne2 h.symm

/-- C13, amended, at the chain `urn:a -> urn:b -> urn:c`: the target URI of
`xmlns:foo="urn:a"` is `urn:b`; cloned onto a fresh element the entry gives
`xmlns:foo="urn:b"`; below an element that has `urn:b` in scope the binding
`xmlns:b="urn:b"` is reused; on an element that only has `urn:c` in scope
the binding returned does not have the URI `urn:c`. -/
theorem C13_single_hop_witness :
    targetURI ctxtABC nsFooA = some "urn:b" ∧
    (xsltCopyNamespaceList ctxtABC (some freshElement) [nsFooA]).1 =
      [⟨some "urn:b", some "foo"⟩] ∧
    (∃ b, xsltGetNamespace (some ctxtABC) (some freshElement) (some nsFooA)
          (some childOfAB) = (some b, some childOfAB) ∧
      b ∈ inScopeBindings childOfAB ∧ b.href = some "urn:b") ∧
    (∃ b ∈ inScopeBindings elementC, b.href = some "urn:c") ∧
    (∀ b, (xsltGetNamespace (some ctxtABC) (some freshElement) (some nsFooA)
        (some elementC)).1 = some b → b.href ≠ some "urn:c") :=
  have h := C13_single_hop ctxtABC "urn:a" "urn:b" "urn:c" (some "foo") rfl
    rfl (by decide) (by decide) (by decide)
  ⟨h.1, h.2.2.1 (some freshElement) rfl (by decide),
    h.2.2.2.1 freshElement childOfAB
      (by rintro ⟨_, ons, s, h1, _⟩; cases h1)
      ⟨⟨some "urn:b", some "b"⟩, by decide, rfl⟩,
    ⟨⟨some "urn:c", some "c"⟩, by decide, rfl⟩,
    h.2.2.2.2 freshElement elementC⟩

/-- One registration adds at most the entry that the declaring node
denotes: every entry of the table after the call was there before or is the
pair of URIs of the declaration. -/
theorem xsltNamespaceAlias_entries (style : xsltStylesheet) (node : xmlNode)
    (t : xmlHashTable)
    (ht : (xsltNamespaceAlias style node).nsAliases = some t) :
    ∀ e ∈ t, e ∈ style.nsAliases.getD [] ∨ declaresAlias node e.1 e.2 := by
  intro e he
  by_cases hd : ∃ s r, declaresAlias node s r
  · obtain ⟨s, r, hsr⟩ := hd
    rw [xsltNamespaceAlias_of_declares style node s r hsr] at ht
    simp only [xmlHashAddEntry] at ht
    split at ht
    · simp only [Option.some.injEq] at ht
      subst ht
      exact Or.inl he
    · simp only [Option.some.injEq] at ht
      subst ht
      rcases List.mem_append.1 he with h | h
      · exact Or.inl h
      · simp only [List.mem_singleton] at h
        subst h
        exact Or.inr hsr
  · rw [xsltNamespaceAlias_of_not_declares style node hd] at ht
    rw [ht]
    exact Or.inl he

/-- After a sequence of registrations every entry of the table was there
before or is the pair of URIs of one of the declarations. -/
theorem foldl_xsltNamespaceAlias_entries :
    ∀ (nodes : List xmlNode) (style : xsltStylesheet) (t : xmlHashTable),
      (nodes.foldl xsltNamespaceAlias style).nsAliases = some t →
      ∀ e ∈ t, e ∈ style.nsAliases.getD [] ∨
        ∃ n ∈ nodes, declaresAlias n e.1 e.2
  | [], style, t, ht, e, he => by
    simp only [List.foldl_nil] at ht
    rw [ht]
    exact Or.inl he
  | node :: rest, style, t, ht, e, he => by
    rw [List.foldl_cons] at ht
    rcases foldl_xsltNamespaceAlias_entries rest _ t ht e he with h | ⟨n, hn, h⟩
    · cases h1 : (xsltNamespaceAlias style node).nsAliases with
      | none =>
        rw [h1] at h
        simp at h
      | some t1 =>
        rw [h1] at h
        rcases xsltNamespaceAlias_entries style node t1 h1 e h with h2 | h2
        · exact Or.inl h2
        · exact Or.inr ⟨node, List.mem_cons_self _ _, h2⟩
    · exact Or.inr ⟨n, List.mem_cons_of_mem _ hn, h⟩

/-- C14, refuted as stated: the declaration `a -> #default` on a node that
carries `xmlns=""` is well-formed, its result binding has the empty URI, and
the table created by its registration maps `urn:a` to the empty string. -/
theorem C14_counterexample_empty_target :
    declaresAlias aliasAtoEmptyDefault "urn:a" "" ∧
    (xsltNamespaceAlias styleNone aliasAtoEmptyDefault).nsAliases =
      some [("urn:a", "")] ∧
    xmlHashLookup (xsltNamespaceAlias styleNone aliasAtoEmptyDefault).nsAliases
      (some "urn:a") = some "" :=
  ⟨⟨"a", "#default", ⟨some "urn:a", some "a"⟩, ⟨some "", none⟩,
      by decide, by decide, by decide, rfl, by decide, rfl⟩,
    by decide, by decide⟩

/-- C14, amended (targets are never missing): starting from a table that is
empty or not created yet, after any sequence of `xsltNamespaceAlias` calls
every entry of the Alias Table has a target: the lookup of its source URI
finds one, and the entry is the pair of URIs that the two prefixes of one of
the declaring nodes resolve to, so that source and target are the URIs of
bindings that exist and have a URI. -/
theorem C14_targets_never_missing (style : xsltStylesheet)
    (nodes : List xmlNode)
    (hstart : style.nsAliases = none ∨ style.nsAliases = some [])
    (t : xmlHashTable)
    (ht : (nodes.foldl xsltNamespaceAlias style).nsAliases = some t) :
    ∀ e ∈ t,
      xmlHashLookup (some t) (some e.1) ≠ none ∧
      ∃ n ∈ nodes, declaresAlias n e.1 e.2 := by
  intro e he
  constructor
  · intro hnone
    have hany := (xmlHashLookup_eq_none_iff t e.1).1 hnone
    rw [List.any_eq_false] at hany
    exact hany e he (by simp)
  · rcases foldl_xsltNamespaceAlias_entries nodes style t ht e he with h | h
    · rcases hstart with h0 | h0 <;> rw [h0] at h <;> simp at h
    · exact h

/-- C14, amended, at the registrations `a -> b`, `#default -> b` (rejected)
and `a -> c` (name present) on a stylesheet without table: the one entry,
`urn:a -> urn:b`, has a target and comes from the first declaration. -/
theorem C14_targets_never_missing_witness :
    ([aliasAtoB, aliasDefaultToB, aliasAtoC].foldl xsltNamespaceAlias
        styleNone).nsAliases = some [("urn:a", "urn:b")] ∧
    ∀ e ∈ [(("urn:a", "urn:b") : String × String)],
      xmlHashLookup (some [("urn:a", "urn:b")]) (some e.1) ≠ none ∧
      ∃ n ∈ [aliasAtoB, aliasDefaultToB, aliasAtoC],
        declaresAlias n e.1 e.2 :=
  ⟨by decide,
    C14_targets_never_missing styleNone
      [aliasAtoB, aliasDefaultToB, aliasAtoC] (Or.inl rfl)
      [("urn:a", "urn:b")] (by decide)⟩

end Xslt
